import Mathlib

/-!
Verification development for the paestro-orchestrator-mcp core.

The JavaScript source is shallowly embedded:

* JSON values become the mutual inductive `JsonVal`/`JsonArr`/`JsonObr` below
  (mutual rather than nested so that all recursions stay structural and every
  definition evaluates inside the kernel).  Numbers are modelled as integers:
  every number appearing in the claims and in the registry/workflow data is
  integral, and JavaScript renders integral numbers without a decimal point.
* Stateful classes become records plus explicit state-passing functions.
* The outside world (downstream tool calls, `new Function` condition
  evaluation, `process.env`, file contents) is an explicit oracle parameter.
* Wall-clock time is a `Nat` threaded where `Date.now()` is read.
-/

namespace Paestro

/- JSON value trees (`null | bool | number | string | array | object`),
as manipulated by the orchestrator.  `JsonObr` keeps insertion order the way
JavaScript objects do. -/
mutual
inductive JsonVal where
  | null
  | bool (b : Bool)
  | num (n : Int)
  | str (s : String)
  | arr (xs : JsonArr)
  | obj (fs : JsonObr)
inductive JsonArr where
  | nil
  | cons (v : JsonVal) (tl : JsonArr)
inductive JsonObr where
  | nil
  | cons (k : String) (v : JsonVal) (tl : JsonObr)
end

/-- Build a JSON array from a list. -/
def jarr : List JsonVal → JsonArr
  | [] => .nil
  | v :: tl => .cons v (jarr tl)

/-- Build a JSON object from an ordered field list. -/
def jobj : List (String × JsonVal) → JsonObr
  | [] => .nil
  | (k, v) :: tl => .cons k v (jobj tl)

/-- Ordered field list of a JSON object. -/
def JsonObr.fields : JsonObr → List (String × JsonVal)
  | .nil => []
  | .cons k v tl => (k, v) :: tl.fields

/-- Elements of a JSON array as a list. -/
def JsonArr.toList : JsonArr → List JsonVal
  | .nil => []
  | .cons v tl => v :: tl.toList

/-- Length of a JSON array. -/
def JsonArr.length : JsonArr → Nat
  | .nil => 0
  | .cons _ tl => tl.length + 1

/-- n-th element of a JSON array. -/
def JsonArr.get : JsonArr → Nat → Option JsonVal
  | .nil, _ => none
  | .cons v _, 0 => some v
  | .cons _ tl, n + 1 => tl.get n

/-- First field with the given key (JavaScript object keys are unique, so
first = only). -/
def JsonObr.get : JsonObr → String → Option JsonVal
  | .nil, _ => none
  | .cons k v tl, key => if k = key then some v else tl.get key

/-- JavaScript truthiness of a JSON value. -/
def jsTruthy : JsonVal → Bool
  | .null => false
  | .bool b => b
  | .num n => n != 0
  | .str s => s ≠ ""
  | .arr _ => true
  | .obj _ => true

/-- `typeof` rendering used in the registry validation error messages. -/
def jsTypeof : JsonVal → String
  | .null => "object"
  | .bool _ => "boolean"
  | .num _ => "number"
  | .str _ => "string"
  | .arr _ => "object"
  | .obj _ => "object"

/-- Canonical decimal array index: `"0"`, `"17"`, … (no leading zeros). -/
def decimalIndex (s : String) : Option Nat :=
  match s.data with
  | [] => none
  | ['0'] => some 0
  | c :: rest =>
    if c.isDigit ∧ c ≠ '0' ∧ rest.all Char.isDigit then
      some ((c :: rest).foldl (fun n d => n * 10 + (d.toNat - '0'.toNat)) 0)
    else none

/-- JavaScript property access `value[key]` restricted to the JSON data the
orchestrator manipulates: object fields, array indices and `length`, string
indices and `length`.  Properties of the primitive wrappers of booleans and
numbers (none are used anywhere in the source) read as `undefined`. -/
def jsProp : JsonVal → String → Option JsonVal
  | .obj fs, key => fs.get key
  | .arr xs, key =>
    if key = "length" then some (.num xs.length)
    else match decimalIndex key with
      | some i => xs.get i
      | none => none
  | .str s, key =>
    if key = "length" then some (.num s.length)
    else match decimalIndex key with
      | some i => (s.data.get? i).map (fun c => .str (String.mk [c]))
      | none => none
  | _, _ => none

/-- `String.prototype.split(sep)` on character lists (`"a.b" ↦ ["a","b"]`,
`"" ↦ [""]`). -/
def splitOnChar (sep : Char) : List Char → List (List Char)
  | [] => [[]]
  | c :: rest =>
    let r := splitOnChar sep rest
    if c = sep then [] :: r
    else
      match r with
      | h :: t => (c :: h) :: t
      | [] => [[c]]

/-- `WorkflowStep.getNestedValue` / `OrchestrationEngine.getNestedValue`
(src/unnamed/part_000 lines 135-139 and 860-864):
`path.split('.').reduce((current, key) => current && current[key] !== undefined
? current[key] : undefined, obj)`.  `none` plays `undefined`. -/
def getNestedValue (obj : JsonVal) (path : String) : Option JsonVal :=
  (splitOnChar '.' path.data).foldl
    (fun current key =>
      match current with
      | none => none
      | some v => if jsTruthy v then jsProp v (String.mk key) else none)
    (some obj)

mutual
/-- JavaScript `String(value)` coercion applied by `String.prototype.replace`
to the replacement value, for JSON data. -/
def jsToString : JsonVal → String
  | .null => "null"
  | .bool b => if b then "true" else "false"
  | .num n => toString n
  | .str s => s
  | .arr xs => jsArrStr xs
  | .obj _ => "[object Object]"
/-- Array elements render through `Array.prototype.join(',')`, which renders
`null` elements as the empty string. -/
def jsElemStr : JsonVal → String
  | .null => ""
  | .bool b => if b then "true" else "false"
  | .num n => toString n
  | .str s => s
  | .arr xs => jsArrStr xs
  | .obj _ => "[object Object]"
def jsArrStr : JsonArr → String
  | .nil => ""
  | .cons v .nil => jsElemStr v
  | .cons v (.cons w tl) => jsElemStr v ++ "," ++ jsArrStr (.cons w tl)
end

/-- Split the input at the first `'}'`: `spanToBrace cs = some (p, r)` when
`cs = p ++ '}' :: r` with `'}' ∉ p`; `none` when `cs` has no `'}'`.  This is
how the regex `\$\{([^}]+)\}` delimits its capture (`[^}]` stops at the first
closing brace). -/
def spanToBrace : List Char → Option (List Char × List Char)
  | [] => none
  | c :: rest =>
    if c = '}' then some ([], rest)
    else (spanToBrace rest).map (fun pr => (c :: pr.1, pr.2))

/-- Attempt to match the tail of `\$\{([^}]+)\}` right after a `'$'`:
requires a `'{'`, a non-empty brace-free capture and a closing `'}'`.
Returns the capture and the input following the match. -/
def tryBraced : List Char → Option (List Char × List Char)
  | '{' :: r2 =>
    match spanToBrace r2 with
    | some (path, r3) => if path.isEmpty then none else some (path, r3)
    | none => none
  | _ => none

/-- First replacement pass of `WorkflowStep.interpolateString`
(src/unnamed/part_000 lines 123-125): the global regex
`\$\{([^}]+)\}` replaced by the looked-up value coerced by `String(...)`, or
left in place when the lookup is `undefined`.  The scanner advances one
character on a failed match and continues after a successful one; `fuel`
bounds the scan (each step consumes at least one input character, so
`fuel = length` is always enough — the callers pass exactly that). -/
def replaceBracedGo (lookup : String → Option JsonVal) : Nat → List Char → List Char
  | 0, cs => cs
  | _ + 1, [] => []
  | fuel + 1, c :: rest =>
    if c = '$' then
      match tryBraced rest with
      | some (path, r3) =>
        match lookup (String.mk path) with
        | some v => (jsToString v).data ++ replaceBracedGo lookup fuel r3
        | none => c :: '{' :: (path ++ '}' :: replaceBracedGo lookup fuel r3)
      | none => c :: replaceBracedGo lookup fuel rest
    else c :: replaceBracedGo lookup fuel rest

/-- `[A-Za-z_]`, the first character of a bare interpolation identifier. -/
def isIdentStart (c : Char) : Bool := c.isAlpha || c = '_'

/-- `[A-Za-z0-9_]`, the remaining characters of an identifier. -/
def isIdentChar (c : Char) : Bool := c.isAlphanum || c = '_'

/-- Greedy `[A-Za-z0-9_]*`. -/
def takeIdent : List Char → List Char × List Char
  | [] => ([], [])
  | c :: rest =>
    if isIdentChar c then
      let ab := takeIdent rest
      (c :: ab.1, ab.2)
    else ([], c :: rest)

/-- Greedy `(?:\.[A-Za-z_][A-Za-z0-9_]*)*`: each round needs a dot followed
by an identifier, otherwise the round (and its dot) is not consumed. -/
def parseDotSegs : Nat → List Char → List Char × List Char
  | 0, cs => ([], cs)
  | fuel + 1, cs =>
    match cs with
    | '.' :: d :: rest =>
      if isIdentStart d then
        let seg := takeIdent rest
        let more := parseDotSegs fuel seg.2
        ('.' :: d :: (seg.1 ++ more.1), more.2)
      else ([], cs)
    | _ => ([], cs)

/-- Match of `[A-Za-z_][A-Za-z0-9_]*(?:\.[A-Za-z_][A-Za-z0-9_]*)*` at the head
of the input: `some (path, rest)` or `none` when the head cannot start an
identifier. -/
def parseIdentPath : List Char → Option (List Char × List Char)
  | [] => none
  | c :: rest =>
    if isIdentStart c then
      let seg := takeIdent rest
      let more := parseDotSegs seg.2.length seg.2
      some (c :: (seg.1 ++ more.1), more.2)
    else none

/-- Second replacement pass of `WorkflowStep.interpolateString`
(src/unnamed/part_000 lines 126-128): the bare
`\$([a-zA-Z_][a-zA-Z0-9_]*(?:\.[a-zA-Z_][a-zA-Z0-9_]*)*)` regex. -/
def replaceBareGo (lookup : String → Option JsonVal) : Nat → List Char → List Char
  | 0, cs => cs
  | _ + 1, [] => []
  | fuel + 1, c :: rest =>
    if c = '$' then
      match parseIdentPath rest with
      | some (path, r2) =>
        match lookup (String.mk path) with
        | some v => (jsToString v).data ++ replaceBareGo lookup fuel r2
        | none => c :: (path ++ replaceBareGo lookup fuel r2)
      | none => c :: replaceBareGo lookup fuel rest
    else c :: replaceBareGo lookup fuel rest

/-- `WorkflowStep.interpolateString(str, context)` (src/unnamed/part_000
lines 120-130, textually repeated as `OrchestrationEngine.interpolateString`
lines 848-858): two sequential global regex replacements; the second pass
scans the output of the first. -/
def interpolateString (s : String) (ctx : JsonVal) : String :=
  let lookup := fun p => getNestedValue ctx p
  let pass1 := replaceBracedGo lookup s.data.length s.data
  String.mk (replaceBareGo lookup pass1.length pass1)

mutual
/-- `WorkflowStep.interpolateObject(obj, context)` (src/unnamed/part_000
lines 102-115, repeated at lines 833-846): interpolate every string leaf,
recurse through arrays and objects, pass all other values through. -/
def interpolateObject (v : JsonVal) (ctx : JsonVal) : JsonVal :=
  match v with
  | .str s => .str (interpolateString s ctx)
  | .arr xs => .arr (interpolateArr xs ctx)
  | .obj fs => .obj (interpolateFields fs ctx)
  | other => other
def interpolateArr (xs : JsonArr) (ctx : JsonVal) : JsonArr :=
  match xs with
  | .nil => .nil
  | .cons v tl => .cons (interpolateObject v ctx) (interpolateArr tl ctx)
def interpolateFields (fs : JsonObr) (ctx : JsonVal) : JsonObr :=
  match fs with
  | .nil => .nil
  | .cons k v tl => .cons k (interpolateObject v ctx) (interpolateFields tl ctx)
end

/-- The input contains a match of the braced regex `\$\{([^}]+)\}`:
some position starts with `'$'`, `'{'` and a non-empty brace-free segment
closed by `'}'`. -/
def hasBracedTok : List Char → Bool
  | [] => false
  | c :: rest => (c = '$' && (tryBraced rest).isSome) || hasBracedTok rest

/-- The input contains a match of the bare regex: a `'$'` followed by an
identifier-start character (exactly when `parseIdentPath` succeeds there). -/
def hasBareTok : List Char → Bool
  | [] => false
  | c :: rest => (c = '$' && (parseIdentPath rest).isSome) || hasBareTok rest

/-!  Circuit breaker and resilient client (src/unnamed/part_002). -/

/-- A JavaScript `Error` as the client observes it: a message plus an
optional `code` property. -/
structure JsError where
  message : String
  code : Option String
deriving DecidableEq

/-- `CircuitBreakerState` (src/unnamed/part_002 lines 7-11). -/
inductive CBState where
  | CLOSED
  | OPEN
  | HALF_OPEN
deriving DecidableEq

/-- State of one `CircuitBreaker` instance (src/unnamed/part_002 lines
16-44): configuration, mutable counters and the metrics object.  Wall-clock
values are `Nat` timestamps. -/
structure CircuitBreaker where
  failureThreshold : Nat
  resetTimeout : Nat
  monitoringPeriod : Nat
  state : CBState
  failures : Nat
  successes : Nat
  lastFailureTime : Option Nat
  nextAttempt : Option Nat
  totalRequests : Nat
  totalFailures : Nat
  totalSuccesses : Nat
  stateChanges : Nat
deriving DecidableEq

/-- A freshly constructed breaker (defaults from lines 20-24; both
counters and metrics start at zero, state `CLOSED`). -/
def CircuitBreaker.make (failureThreshold resetTimeout monitoringPeriod : Nat) :
    CircuitBreaker :=
  { failureThreshold := failureThreshold
    resetTimeout := resetTimeout
    monitoringPeriod := monitoringPeriod
    state := .CLOSED
    failures := 0
    successes := 0
    lastFailureTime := none
    nextAttempt := none
    totalRequests := 0
    totalFailures := 0
    totalSuccesses := 0
    stateChanges := 0 }

/-- `CircuitBreaker.onSuccess` (lines 77-87). -/
def CircuitBreaker.onSuccess (cb : CircuitBreaker) : CircuitBreaker :=
  let cb := { cb with successes := cb.successes + 1,
                      totalSuccesses := cb.totalSuccesses + 1 }
  if cb.state = .HALF_OPEN then
    { cb with state := .CLOSED, failures := 0, stateChanges := cb.stateChanges + 1 }
  else cb

/-- `CircuitBreaker.onFailure` (lines 92-103): increment the rolling failure
counter; open the breaker only when the counter reaches the threshold. -/
def CircuitBreaker.onFailure (now : Nat) (cb : CircuitBreaker) : CircuitBreaker :=
  let cb := { cb with failures := cb.failures + 1,
                      totalFailures := cb.totalFailures + 1,
                      lastFailureTime := some now }
  if cb.failures ≥ cb.failureThreshold then
    { cb with state := .OPEN, nextAttempt := some (now + cb.resetTimeout),
              stateChanges := cb.stateChanges + 1 }
  else cb

/-- One tick of the monitoring timer (lines 40-43): the rolling
success/failure counters are reset every `monitoringPeriod`. -/
def CircuitBreaker.monitoringTick (cb : CircuitBreaker) : CircuitBreaker :=
  { cb with failures := 0, successes := 0 }

/-- `pat` is a prefix of `s` (character lists). -/
def listHasPrefix : List Char → List Char → Bool
  | [], _ => true
  | _ :: _, [] => false
  | p :: ps, c :: cs => p = c && listHasPrefix ps cs

/-- `String.prototype.includes`: `pat` occurs contiguously in `s`. -/
def containsSub (s pat : List Char) : Bool :=
  match s with
  | [] => pat.isEmpty
  | _ :: tl => listHasPrefix pat s || containsSub tl pat

/-- `MCPClient.isRetryableError` (src/unnamed/part_002 lines 658-681).
The `metrics.timeouts` side increment inside the timeout branch is dropped
(the predicate itself is otherwise pure and no claim reads that metric). -/
def isRetryableError (e : JsError) : Bool :=
  if e.code = some "ECONNREFUSED" ∨ e.code = some "ETIMEDOUT" then true
  else if containsSub e.message.data "HTTP 5".data then true
  else if containsSub e.message.data "timeout".data then true
  else if e.code = some "CIRCUIT_BREAKER_OPEN" then false
  else false

/-- Loop body of `MCPClient.executeWithRetry` (src/unnamed/part_002 lines
622-653).  `fn attempt` is the outcome of the attempt with that loop index;
`remaining` counts the retries left (`remaining = maxRetries - attempt`, so
`remaining = 0` is the `attempt === maxRetries` break).  Returns the final
outcome together with how many times `fn` was invoked.  The backoff delay
computation (lines 643-648) only affects timing and is not modelled. -/
def retryGo (fn : Nat → Except JsError JsonVal) :
    Nat → Nat → Except JsError JsonVal × Nat
  | remaining, attempt =>
    match fn attempt with
    | .ok v => (.ok v, attempt + 1)
    | .error e =>
      match remaining with
      | 0 => (.error e, attempt + 1)
      | r + 1 =>
        if isRetryableError e then retryGo fn r (attempt + 1)
        else (.error e, attempt + 1)

/-- `MCPClient.executeWithRetry(fn)`: run the loop from attempt 0 with
`maxRetries` retries available. -/
def executeWithRetry (maxRetries : Nat) (fn : Nat → Except JsError JsonVal) :
    Except JsError JsonVal × Nat :=
  retryGo fn maxRetries 0

/-- The client state a `callTool` invocation touches: the breaker plus the
`requests`/`successes`/`failures` metrics (src/unnamed/part_002 lines
344-353; latency metrics are wall-clock only and not modelled). -/
structure MCPClientState where
  breaker : CircuitBreaker
  maxRetries : Nat
  requests : Nat
  successes : Nat
  failures : Nat
deriving DecidableEq

/-- The error thrown by `CircuitBreaker.execute` when rejecting (lines
54-55). -/
def circuitOpenError : JsError :=
  { message := "Circuit breaker is OPEN", code := some "CIRCUIT_BREAKER_OPEN" }

/-- `MCPClient.callTool` (src/unnamed/part_002 lines 572-617) composed with
`CircuitBreaker.execute` (lines 49-72): the breaker wraps one call to
`executeWithRetry`, which in turn makes the individual attempts.  `fn`
stands for `executeCall` (pool acquire / JSON-RPC send / release), indexed
by the retry-loop attempt number; `now` is `Date.now()` for this
invocation.  Returns the new client state, the surfaced outcome and the
number of times `fn` ran. -/
def callTool (now : Nat) (cl : MCPClientState)
    (fn : Nat → Except JsError JsonVal) :
    MCPClientState × Except JsError JsonVal × Nat :=
  let cl := { cl with requests := cl.requests + 1 }
  let cb := { cl.breaker with totalRequests := cl.breaker.totalRequests + 1 }
  let runBody := fun (cb : CircuitBreaker) =>
    match executeWithRetry cl.maxRetries fn with
    | (.ok v, attempts) =>
      ({ cl with breaker := cb.onSuccess, successes := cl.successes + 1 },
        Except.ok v, attempts)
    | (.error e, attempts) =>
      ({ cl with breaker := cb.onFailure now, failures := cl.failures + 1 },
        Except.error e, attempts)
  if cb.state = CBState.OPEN then
    if now < cb.nextAttempt.getD 0 then
      ({ cl with breaker := cb, failures := cl.failures + 1 },
        Except.error circuitOpenError, 0)
    else
      runBody { cb with state := .HALF_OPEN, stateChanges := cb.stateChanges + 1 }
  else runBody cb

/-!  Discovery service (src/unnamed/part_005). -/

/-- Association-list lookup with JavaScript `Map`/object semantics (keys are
unique; first match). -/
def lookupEntry {α : Type} : List (String × α) → String → Option α
  | [], _ => none
  | (k0, v0) :: tl, k => if k0 = k then some v0 else lookupEntry tl k

/-- `Map.prototype.set` / property assignment: replace the value at an
existing key in place, else append the new key. -/
def setEntry {α : Type} : List (String × α) → String → α → List (String × α)
  | [], k, v => [(k, v)]
  | (k0, v0) :: tl, k, v =>
    if k0 = k then (k0, v) :: tl else (k0, v0) :: setEntry tl k v

/-- Does the object have the key? -/
def JsonObr.hasKey (fs : JsonObr) (k : String) : Bool := (fs.get k).isSome

/-- Property assignment on a JSON object (replace in place / append). -/
def JsonObr.setField : JsonObr → String → JsonVal → JsonObr
  | .nil, k, v => .cons k v .nil
  | .cons k0 v0 tl, k, v =>
    if k0 = k then .cons k0 v tl else .cons k0 v0 (tl.setField k v)

/-- `Object.entries(value)`: fields of an object, indexed elements of an
array, nothing for primitives. -/
def jsEntries : JsonVal → List (String × JsonVal)
  | .obj fs => fs.fields
  | .arr xs => xs.toList.enum.map (fun iv => (toString iv.1, iv.2))
  | _ => []

/-- Spread `{...base, ...v}`: fold the entries of `v` over `base`. -/
def spreadInto (base : JsonObr) (v : JsonVal) : JsonObr :=
  (jsEntries v).foldl (fun acc kv => acc.setField kv.1 kv.2) base

/-- `s` starts with `pat`. -/
def strStartsWith (s pat : String) : Bool := listHasPrefix pat.data s.data

/-- `s` ends with `pat`. -/
def strEndsWith (s pat : String) : Bool := listHasPrefix pat.data.reverse s.data.reverse

/-- `String.prototype.replace(pat, '')` with a string pattern: remove the
first occurrence of `pat` (JavaScript string patterns replace only the
first occurrence). -/
def removeFirstSub : List Char → List Char → List Char
  | [], _ => []
  | c :: tl, pat =>
    if listHasPrefix pat (c :: tl) then (c :: tl).drop pat.length
    else c :: removeFirstSub tl pat

/-- A string of the shape `${VAR}` per `resolveEnvVars`'s check
(`startsWith('${') && endsWith('}')`). -/
def isEnvRef (s : String) : Bool := strStartsWith s "$\x7b" && strEndsWith s "\x7d"

/-- `value.slice(2, -1)`: the variable name inside `${…}`. -/
def envRefName (s : String) : String := String.mk ((s.data.drop 2).dropLast)

/-- `process.env[envVar] || value`: an unset or empty environment variable
keeps the literal reference. -/
def resolveRef (envLU : String → Option String) (s : String) : String :=
  match envLU (envRefName s) with
  | some v => if v ≠ "" then v else s
  | none => s

mutual
/-- Entry values under `MCPDiscoveryService.resolveEnvVars`'s `traverse`
(src/unnamed/part_005 lines 243-259): `${VAR}`-shaped strings are replaced
from the environment, objects and arrays are traversed, all else kept. -/
def resolveEntryVal (envLU : String → Option String) : JsonVal → JsonVal
  | .str s => if isEnvRef s then .str (resolveRef envLU s) else .str s
  | .obj fs => .obj (resolveFields envLU fs)
  | .arr xs => .arr (resolveElems envLU xs)
  | v => v
def resolveFields (envLU : String → Option String) : JsonObr → JsonObr
  | .nil => .nil
  | .cons k v tl => .cons k (resolveEntryVal envLU v) (resolveFields envLU tl)
def resolveElems (envLU : String → Option String) : JsonArr → JsonArr
  | .nil => .nil
  | .cons v tl => .cons (resolveEntryVal envLU v) (resolveElems envLU tl)
end

/-- `MCPDiscoveryService.resolveEnvVars(obj)`: `traverse` walks the entries
of the copied value; a non-container input has no entries and is returned
as copied. -/
def resolveEnvVars (envLU : String → Option String) : JsonVal → JsonVal
  | .obj fs => .obj (resolveFields envLU fs)
  | .arr xs => .arr (resolveElems envLU xs)
  | v => v

/-- Property assignment `value[key] = v` for the auto-fix writes in
`validateRegistry`; every value written to is a validated object (string
properties of arrays are not representable in the JSON tree and are left
unchanged). -/
def jsSetProp (v : JsonVal) (key : String) (w : JsonVal) : JsonVal :=
  match v with
  | .obj fs => .obj (fs.setField key w)
  | other => other

/-- `typeof` of a possibly-`undefined` property. -/
def typeofOpt : Option JsonVal → String
  | some v => jsTypeof v
  | none => "undefined"

/-- `Array.isArray` of a possibly-`undefined` property. -/
def isJsArray : Option JsonVal → Bool
  | some (.arr _) => true
  | _ => false

/-- Validate one MCP entry (`validateRegistry`'s loop body, src/unnamed/
part_005 lines 151-198): reject non-objects; auto-fill a falsy `name` from
the map key and a falsy `version` with `"1.0.0"`; reject truthy non-string
`name`/`version`, missing/empty `endpoints`, and non-array
`capabilities`/`tools`.  Returns the (possibly auto-fixed) entry. -/
def validateMcp (name : String) (mcp : JsonVal) : Except String JsonVal :=
  if ¬ (jsTruthy mcp ∧ jsTypeof mcp = "object") then
    .error s!"MCP {name} is not a valid object"
  else
    let nameOk : Except String JsonVal :=
      match jsProp mcp "name" with
      | some v =>
        if ¬ jsTruthy v then .ok (jsSetProp mcp "name" (.str name))
        else
          match v with
          | .str _ => .ok mcp
          | _ =>
            .error (s!"MCP {name} missing required name field (found: " ++
              jsTypeof v ++ ": " ++ jsToString v ++ ")")
      | none => .ok (jsSetProp mcp "name" (.str name))
    match nameOk with
    | .error e => .error e
    | .ok mcp =>
      let versionOk : Except String JsonVal :=
        match jsProp mcp "version" with
        | some v =>
          if ¬ jsTruthy v then .ok (jsSetProp mcp "version" (.str "1.0.0"))
          else
            match v with
            | .str _ => .ok mcp
            | _ =>
              .error (s!"MCP {name} missing required version field (found: " ++
                jsTypeof v ++ ": " ++ jsToString v ++ ")")
        | none => .ok (jsSetProp mcp "version" (.str "1.0.0"))
      match versionOk with
      | .error e => .error e
      | .ok mcp =>
        let endpointsBad : Bool :=
          match jsProp mcp "endpoints" with
          | some eps => !jsTruthy eps || jsTypeof eps != "object" || (jsEntries eps).isEmpty
          | none => true
        if endpointsBad then
          .error (s!"MCP {name} must have at least one endpoint (found: " ++
            typeofOpt (jsProp mcp "endpoints") ++ ")")
        else if ¬ isJsArray (jsProp mcp "capabilities") then
          .error (s!"MCP {name} capabilities must be an array (found: " ++
            typeofOpt (jsProp mcp "capabilities") ++ ")")
        else if ¬ isJsArray (jsProp mcp "tools") then
          .error (s!"MCP {name} tools must be an array (found: " ++
            typeofOpt (jsProp mcp "tools") ++ ")")
        else .ok mcp

/-- Validate the entries of `registry.mcps` left to right, accumulating the
auto-fixed entries; the first failure aborts the whole validation. -/
def validateMcps : List (String × JsonVal) → Except String (List (String × JsonVal))
  | [] => .ok []
  | (name, mcp) :: tl =>
    match validateMcp name mcp with
    | .error e => .error e
    | .ok fixed =>
      match validateMcps tl with
      | .error e => .error e
      | .ok rest => .ok ((name, fixed) :: rest)

/-- Rebuild the `mcps` container with its validated entries, preserving the
container kind (`Object.entries` order). -/
def rebuildMcps (orig : JsonVal) (entries : List (String × JsonVal)) : JsonVal :=
  match orig with
  | .arr _ => .arr (jarr (entries.map (·.2)))
  | _ => .obj (jobj entries)

/-- `MCPDiscoveryService.validateRegistry` (src/unnamed/part_005 lines
133-199) as a function returning the in-place-auto-fixed registry: the
registry and its `mcps` must be truthy objects, and every entry must pass
`validateMcp`.  Any failure rejects the whole registry. -/
def validateRegistry (reg : JsonVal) : Except String JsonVal :=
  if ¬ (jsTruthy reg ∧ jsTypeof reg = "object") then
    .error "Registry must be an object"
  else
    let mcpsBad : Bool :=
      match jsProp reg "mcps" with
      | some m => !jsTruthy m || jsTypeof m != "object"
      | none => true
    if mcpsBad then .error "Registry must have mcps object"
    else
      match jsProp reg "mcps" with
      | none => .error "Registry must have mcps object"
      | some mcps =>
        match validateMcps (jsEntries mcps) with
        | .error e => .error e
        | .ok fixed => .ok (jsSetProp reg "mcps" (rebuildMcps mcps fixed))

/-- Discovery events observed by the engine (src/unnamed/part_005 lines
100-121 and the per-source `mcp_discovered` emissions). -/
inductive DiscEvent where
  | mcps_added (names : List String)
  | mcps_removed (names : List String)
  | mcps_updated (names : List String)
  | registry_loaded
  | mcp_discovered (name : String)
deriving DecidableEq

/-- State of one `MCPDiscoveryService` (src/unnamed/part_005 lines 29-45):
the authoritative registry value, the descriptor cache (a `Map`), and the
metrics counters the claims can observe.  `lastReload` keeps the reload
timestamp. -/
structure DiscoveryState where
  environment : String
  registry : Option JsonVal
  mcpCache : List (String × JsonVal)
  registryReloads : Nat
  errors : Nat
  mcpsDiscovered : Nat
  lastReload : Option Nat

/-- `endpoint.headers = resolveEnvVars(endpoint.headers)` for one endpoint
value (src/unnamed/part_005 lines 221-227): only truthy `headers` of object
endpoints are rewritten. -/
def resolveEndpointHeaders (envLU : String → Option String) (endpoint : JsonVal) :
    JsonVal :=
  match endpoint with
  | .obj fs =>
    match fs.get "headers" with
    | some h =>
      if jsTruthy h then .obj (fs.setField "headers" (resolveEnvVars envLU h))
      else .obj fs
    | none => .obj fs
  | v => v

/-- Walk `Object.values(cfg.endpoints)` rewriting each endpoint's headers. -/
def resolveAllEndpoints (envLU : String → Option String) (cfg : JsonVal) : JsonVal :=
  match jsProp cfg "endpoints" with
  | some eps =>
    if jsTruthy eps then
      match eps with
      | .obj fs =>
        jsSetProp cfg "endpoints"
          (.obj (jobj ((fs.fields).map (fun kv => (kv.1, resolveEndpointHeaders envLU kv.2)))))
      | .arr xs =>
        jsSetProp cfg "endpoints"
          (.arr (jarr (xs.toList.map (resolveEndpointHeaders envLU))))
      | _ => cfg
    else cfg
  | none => cfg

/-- `mcpConfig.authentication = resolveEnvVars(mcpConfig.authentication)`
when truthy (src/unnamed/part_005 lines 230-232). -/
def resolveAuthField (envLU : String → Option String) (cfg : JsonVal) : JsonVal :=
  match jsProp cfg "authentication" with
  | some a => if jsTruthy a then jsSetProp cfg "authentication" (resolveEnvVars envLU a) else cfg
  | none => cfg

/-- The `|| {}` fallbacks used for the overlays. -/
def orEmptyObj : Option JsonVal → JsonVal
  | some v => if jsTruthy v then v else .obj .nil
  | none => .obj .nil

/-- `MCPDiscoveryService.updateMcpCache` (src/unnamed/part_005 lines
204-238): clear the cache, then repopulate it with one merged config per
entry of `registry.mcps` — `{...mcp, ...envConfig, ...globalConfig,
timestamp}` with environment references resolved in endpoint headers and
`authentication`.  Auxiliary-sourced cache entries do not survive this. -/
def updateMcpCache (now : Nat) (envLU : String → Option String)
    (reg : JsonVal) (st : DiscoveryState) : DiscoveryState :=
  let envConfig := orEmptyObj ((jsProp reg "environments").bind (fun e => jsProp e st.environment))
  let globalConfig := orEmptyObj (jsProp reg "globalConfig")
  let cache := (jsEntries (orEmptyObj (jsProp reg "mcps"))).map (fun nm =>
    let cfg := JsonVal.obj
      (((spreadInto (spreadInto (spreadInto .nil nm.2) envConfig) globalConfig)).setField
        "timestamp" (.num now))
    let cfg := resolveAllEndpoints envLU cfg
    let cfg := resolveAuthField envLU cfg
    (nm.1, cfg))
  { st with mcpCache := cache, mcpsDiscovered := cache.length }

/-- Names under the `mcps` key of a loaded registry
(`Object.keys(registry.mcps || {})`). -/
def mcpKeys : Option JsonVal → List String
  | some r => (jsEntries (orEmptyObj (jsProp r "mcps"))).map Prod.fst
  | none => []

/-- `MCPDiscoveryService.loadRegistry` (src/unnamed/part_005 lines 82-128).
`parsed` is the outcome of reading and `JSON.parse`-ing the registry file
(an I/O oracle).  On parse or validation failure the error propagates after
only `metrics.errors` changed; on success the registry is swapped, the
cache rebuilt, and the `added`/`removed`/`updated`/`registry_loaded` events
emitted. -/
def loadRegistry (now : Nat) (envLU : String → Option String)
    (parsed : Except String JsonVal) (st : DiscoveryState) :
    DiscoveryState × Except String (List DiscEvent) :=
  match parsed with
  | .error e => ({ st with errors := st.errors + 1 }, .error e)
  | .ok newReg =>
    match validateRegistry newReg with
    | .error e => ({ st with errors := st.errors + 1 }, .error e)
    | .ok reg =>
      let previousMcps := mcpKeys st.registry
      let currentMcps := mcpKeys (some reg)
      let st := { st with registry := some reg,
                          registryReloads := st.registryReloads + 1,
                          lastReload := some now }
      let st := updateMcpCache now envLU reg st
      let added := currentMcps.filter (fun n => ¬ n ∈ previousMcps)
      let removed := previousMcps.filter (fun n => ¬ n ∈ currentMcps)
      let updated := currentMcps.filter (fun n => n ∈ previousMcps)
      let evs :=
        (if added ≠ [] then [DiscEvent.mcps_added added] else []) ++
        (if removed ≠ [] then [DiscEvent.mcps_removed removed] else []) ++
        (if updated ≠ [] then [DiscEvent.mcps_updated updated] else []) ++
        [DiscEvent.registry_loaded]
      (st, .ok evs)

/-- The descriptor `startEnvironmentDiscovery` builds for
`MCP_<NAME>_ENDPOINT = endpoint` (src/unnamed/part_005 lines 377-398): a
URL beginning `http` becomes an `http` endpoint, anything else a `stdio`
command line split on spaces (`undefined`-valued properties are the absent
fields). -/
def envDiscoveredMcp (name endpoint : String) (now : Nat) : JsonVal :=
  let isHttp := strStartsWith endpoint "http"
  let firstWord := String.mk ((splitOnChar ' ' endpoint.data).headD [])
  let restWords := ((splitOnChar ' ' endpoint.data).drop 1).map
    (fun w => JsonVal.str (String.mk w))
  .obj (jobj
    [ ("name", .str name)
    , ("version", .str "0.0.0")
    , ("status", .str "discovered")
    , ("priority", .num 1)
    , ("weight", .num 10)
    , ("endpoints", .obj (jobj
        [ ("primary", .obj (jobj
            ((if isHttp then
                [ ("protocol", JsonVal.str "http"), ("url", JsonVal.str endpoint) ]
              else
                [ ("protocol", JsonVal.str "stdio")
                , ("command", JsonVal.str firstWord)
                , ("args", JsonVal.arr (jarr restWords)) ]) ++
              [ ("timeout", JsonVal.num 30000), ("retries", JsonVal.num 3) ])))
        ]))
    , ("capabilities", .arr .nil)
    , ("tools", .arr .nil)
    , ("dependencies", .arr .nil)
    , ("source", .str "environment")
    , ("timestamp", .num now)
    ])

/-- The name derived from an environment variable key:
`key.replace('MCP_', '').replace('_ENDPOINT', '').toLowerCase()`. -/
def envVarMcpName (key : String) : String :=
  String.mk (((removeFirstSub (removeFirstSub key.data "MCP_".data)
    "_ENDPOINT".data)).map Char.toLower)

/-- One iteration of `startEnvironmentDiscovery`'s loop: derive the name
and register the discovered descriptor unless the name is already
cached. -/
def envDiscStep (now : Nat) (acc : DiscoveryState × List DiscEvent)
    (kv : String × String) : DiscoveryState × List DiscEvent :=
  let mcpName := envVarMcpName kv.1
  if (lookupEntry acc.1.mcpCache mcpName).isSome then acc
  else
    ({ acc.1 with
        mcpCache := setEntry acc.1.mcpCache mcpName (envDiscoveredMcp mcpName kv.2 now) },
      acc.2 ++ [DiscEvent.mcp_discovered mcpName])

/-- `MCPDiscoveryService.startEnvironmentDiscovery` (src/unnamed/part_005
lines 367-407).  `envVars` is the relevant slice of `process.env` in
enumeration order.  Only names not already cached are registered. -/
def startEnvironmentDiscovery (envVars : List (String × String)) (now : Nat)
    (st : DiscoveryState) : DiscoveryState × List DiscEvent :=
  let mcpEnvVars := envVars.filter
    (fun kv => strStartsWith kv.1 "MCP_" && strEndsWith kv.1 "_ENDPOINT")
  mcpEnvVars.foldl (envDiscStep now) (st, [])

/-- `MCPDiscoveryService.getMcp(name)` (src/unnamed/part_005 lines
696-698). -/
def getMcp (st : DiscoveryState) (name : String) : Option JsonVal :=
  lookupEntry st.mcpCache name

/-- The filter used by `getHealthyMcps`: `mcp.healthy !== false` — anything
except the boolean `false` (including a missing field) counts as healthy. -/
def healthyFilter (m : JsonVal) : Bool :=
  match jsProp m "healthy" with
  | some (.bool false) => false
  | _ => true

/-- `MCPDiscoveryService.getHealthyMcps` (src/unnamed/part_005 lines
721-725). -/
def getHealthyMcps (st : DiscoveryState) : List JsonVal :=
  (st.mcpCache.map (·.2)).filter healthyFilter

/-- The cache write `performHealthCheck` does after a check with outcome
`isHealthy` (src/unnamed/part_005 lines 624-634): set `lastHealthCheck` and
`healthy` on the cached descriptor when it is still present. -/
def recordHealthCheck (name : String) (checkedAt : Nat) (isHealthy : Bool)
    (st : DiscoveryState) : DiscoveryState :=
  match lookupEntry st.mcpCache name with
  | none => st
  | some m =>
    let m := jsSetProp (jsSetProp m "lastHealthCheck" (.num checkedAt))
      "healthy" (.bool isHealthy)
    { st with mcpCache := setEntry st.mcpCache name m }

/-!  Workflow engine (src/unnamed/part_000). -/

/-- `Map.prototype.delete`: drop the key. -/
def eraseEntry {α : Type} (m : List (String × α)) (k : String) : List (String × α) :=
  m.filter (fun p => p.1 ≠ k)

/-- `WorkflowState` (src/unnamed/part_000 lines 8-16). -/
inductive WorkflowState where
  | PENDING | RUNNING | COMPLETED | FAILED | CANCELLED | COMPENSATING | COMPENSATED
deriving DecidableEq

/-- `StepState` (src/unnamed/part_000 lines 21-29). -/
inductive StepState where
  | PENDING | RUNNING | COMPLETED | FAILED | SKIPPED | COMPENSATING | COMPENSATED
deriving DecidableEq

/-- A step's `compensation` definition `{mcp?, action, params}` (§ saga). -/
structure Compensation where
  mcp : Option String
  action : String
  params : JsonVal

/-- One `WorkflowStep` object (src/unnamed/part_000 lines 34-55): the
definition fields followed by the runtime-state fields the constructor
initialises.  The spread copies stored in a `WorkflowContext` carry exactly
the same own fields, so the same record type models both the `Workflow`'s
step objects and the per-execution copies.  `startTime`/`endTime` are
wall-clock only and not modelled. -/
structure WorkflowStep where
  name : String
  mcp : String
  action : String
  params : JsonVal
  timeout : Nat
  retries : Nat
  condition : Option String
  compensation : Option Compensation
  parallel : Bool
  critical : Bool
  dependsOn : List String
  state : StepState
  result : Option JsonVal
  error : Option String
  attempt : Nat

/-- The field defaults `new WorkflowStep(definition)` applies (timeout
30000, retries 0, parallel false, critical true, fresh runtime state). -/
def defStep : WorkflowStep :=
  { name := "", mcp := "", action := "", params := .obj .nil
    timeout := 30000, retries := 0, condition := none, compensation := none
    parallel := false, critical := true, dependsOn := []
    state := .PENDING, result := none, error := none, attempt := 0 }

/-- A registered `Workflow` (src/unnamed/part_000 lines 145-169): the
definition plus its step objects keyed by name in definition order.  The
random `id` and optional `description` carry no behaviour and are omitted;
the cycle check of `validate()` concerns registration only and no claim
touches it. -/
structure Workflow where
  name : String
  version : String
  timeout : Nat
  maxRetries : Nat
  compensationStrategy : String
  steps : List (String × WorkflowStep)
  stepOrder : List String

/-- Build a workflow from steps in definition order with the constructor
defaults (version `1.0.0`, timeout 300000, maxRetries 0, strategy
`reverse_order`). -/
def mkWorkflow (name : String) (stepsList : List WorkflowStep) : Workflow :=
  { name := name, version := "1.0.0", timeout := 300000, maxRetries := 0
    compensationStrategy := "reverse_order"
    steps := stepsList.map (fun s => (s.name, s))
    stepOrder := stepsList.map (·.name) }

/-- A `WorkflowContext` (src/unnamed/part_000 lines 241-260): the runtime
step copies (`{...step}` spread copies of the workflow's step objects — a
separate record from the workflow's own, which is the load-bearing detail
several claims turn on), the workflow state and result.  `startTime` /
`endTime` are wall-clock only and not modelled. -/
structure Context where
  workflowId : String
  workflow : Workflow
  input : JsonVal
  steps : List (String × WorkflowStep)
  state : WorkflowState
  result : Option JsonVal
  error : Option String
  attempt : Nat
  /-- the `variables` map (field renamed: `variables` is a Lean keyword) -/
  vars : JsonVal
  metadata : JsonVal

/-- `new WorkflowContext(workflow, input)`: copy the step objects, start
`PENDING`.  `workflowId` replaces the random uuid. -/
def mkContext (id : String) (w : Workflow) (input : JsonVal) : Context :=
  { workflowId := id, workflow := w, input := input
    steps := w.steps
    state := .PENDING, result := none, error := none, attempt := 0
    vars := .obj .nil, metadata := .obj .nil }

/-- Events the engine emits (src/unnamed/part_000, `this.emit(...)` sites),
carrying the workflow id or step name. -/
inductive Event where
  | workflow_started (id : String)
  | workflow_completed (id : String)
  | workflow_cancelled (id : String)
  | workflow_compensation_started (id : String)
  | workflow_compensated (id : String)
  | step_started (name : String)
  | step_completed (name : String)
  | step_failed (name : String)
  | step_skipped (name : String)
  | step_compensation_started (name : String)
  | step_compensated (name : String)
  | step_compensation_failed (name : String)
deriving DecidableEq

/-- The engine's environment: `evalJs s` is the truthiness of
`new Function('return ' + s)()` (false when it throws, per
`evaluateCondition`'s catch); `mcpAvailable`/`mcpHealthy` are the
`this.mcpClients` lookup and `client.isHealthy()`; `callTool n mcp action
params` is the outcome of `mcpClient.callTool(action, params)` — the
resilient client of src/unnamed/part_002 plus the downstream service —
where `n` is the step context's attempt counter at call time (engine
compensation calls, which the engine never retries, use `n = 0`; step
attempts start at 1). -/
structure EngineEnv where
  evalJs : String → Bool
  mcpAvailable : String → Bool
  mcpHealthy : String → Bool
  callTool : Nat → String → String → JsonVal → Except JsError JsonVal

/-- Step state names as stored in result objects. -/
def stepStateName : StepState → String
  | .PENDING => "PENDING"
  | .RUNNING => "RUNNING"
  | .COMPLETED => "COMPLETED"
  | .FAILED => "FAILED"
  | .SKIPPED => "SKIPPED"
  | .COMPENSATING => "COMPENSATING"
  | .COMPENSATED => "COMPENSATED"

/-- Workflow state names. -/
def wfStateName : WorkflowState → String
  | .PENDING => "PENDING"
  | .RUNNING => "RUNNING"
  | .COMPLETED => "COMPLETED"
  | .FAILED => "FAILED"
  | .CANCELLED => "CANCELLED"
  | .COMPENSATING => "COMPENSATING"
  | .COMPENSATED => "COMPENSATED"

/-- `result` / `error` fields as JSON (both are initialised to `null`; an
`Error` object is visible to interpolation through its `message`). -/
def optResultJson : Option JsonVal → JsonVal
  | none => .null
  | some v => v

/-- An `Error` value as seen by property access. -/
def errorJson : Option String → JsonVal
  | none => .null
  | some m => .obj (jobj [("message", .str m)])

/-- A `compensation` definition as JSON. -/
def compToJson (c : Compensation) : JsonVal :=
  .obj (jobj
    ((match c.mcp with
      | some m => [("mcp", JsonVal.str m)]
      | none => []) ++
     [("action", .str c.action), ("params", c.params)]))

/-- A step object as interpolation sees it (own enumerable fields in
constructor order; `undefined`-valued `condition`/`compensation` read the
same as absent fields). -/
def stepToJson (s : WorkflowStep) : JsonVal :=
  .obj (jobj (
    [ ("name", .str s.name), ("mcp", .str s.mcp), ("action", .str s.action)
    , ("params", s.params), ("timeout", .num s.timeout), ("retries", .num s.retries) ]
    ++ (match s.condition with
        | some c => [("condition", JsonVal.str c)]
        | none => [])
    ++ (match s.compensation with
        | some c => [("compensation", compToJson c)]
        | none => [])
    ++ [ ("parallel", .bool s.parallel), ("critical", .bool s.critical)
    , ("dependsOn", .arr (jarr (s.dependsOn.map JsonVal.str)))
    , ("state", .str (stepStateName s.state))
    , ("result", optResultJson s.result)
    , ("error", errorJson s.error)
    , ("attempt", .num s.attempt) ]))

/-- The workflow definition as interpolation sees it through
`context.workflow`. -/
def workflowToJson (w : Workflow) : JsonVal :=
  .obj (jobj
    [ ("name", .str w.name), ("version", .str w.version)
    , ("timeout", .num w.timeout), ("maxRetries", .num w.maxRetries)
    , ("compensationStrategy", .str w.compensationStrategy)
    , ("steps", .obj (jobj (w.steps.map (fun p => (p.1, stepToJson p.2)))))
    , ("stepOrder", .arr (jarr (w.stepOrder.map JsonVal.str))) ])

/-- The execution context as the interpolation root (own enumerable fields
of `WorkflowContext` in constructor order). -/
def contextToJson (ctx : Context) : JsonVal :=
  .obj (jobj
    [ ("workflowId", .str ctx.workflowId)
    , ("workflow", workflowToJson ctx.workflow)
    , ("input", ctx.input)
    , ("steps", .obj (jobj (ctx.steps.map (fun p => (p.1, stepToJson p.2)))))
    , ("state", .str (wfStateName ctx.state))
    , ("result", optResultJson ctx.result)
    , ("error", errorJson ctx.error)
    , ("attempt", .num ctx.attempt)
    , ("variables", ctx.vars)
    , ("metadata", ctx.metadata) ])

/-- `WorkflowStep.evaluateCondition` (src/unnamed/part_000 lines 80-89):
interpolate the condition string against the context, then hand the result
to `new Function` — the oracle `evalJs`, already accounting for the
`catch { return false }`. -/
def evaluateCondition (env : EngineEnv) (cond : String) (ctx : Context) : Bool :=
  env.evalJs (interpolateString cond (contextToJson ctx))

/-- `WorkflowStep.canExecute(context)` (src/unnamed/part_000 lines 60-75):
every dependency's *context* step must be `COMPLETED`, and the condition
(when present) must evaluate truthy. -/
def canExecute (env : EngineEnv) (s : WorkflowStep) (ctx : Context) : Bool :=
  s.dependsOn.all (fun dep =>
    match lookupEntry ctx.steps dep with
    | some d => d.state = StepState.COMPLETED
    | none => false)
  && (match s.condition with
      | some c => evaluateCondition env c ctx
      | none => true)

/-- `Workflow.getExecutableSteps(context)` (src/unnamed/part_000 lines
208-219).  Note that the `state === PENDING` filter reads the *workflow's
own* step objects — the runtime states live on the context's copies and are
never written back, so this filter sees the constructor state. -/
def getExecutableSteps (env : EngineEnv) (ctx : Context) : List WorkflowStep :=
  ctx.workflow.stepOrder.filterMap (fun n =>
    match lookupEntry ctx.workflow.steps n with
    | some s =>
      if s.state = StepState.PENDING ∧ canExecute env s ctx then some s else none
    | none => none)

/-- `Workflow.getCompensationOrder()` (src/unnamed/part_000 lines 224-235):
filter the *workflow's own* step objects (definition order) for
`COMPLETED`-with-`compensation`, reversing under `reverse_order`. -/
def getCompensationOrder (w : Workflow) : List String :=
  let completed := w.stepOrder.filter (fun n =>
    match lookupEntry w.steps n with
    | some s => s.state = StepState.COMPLETED ∧ s.compensation.isSome
    | none => false)
  if w.compensationStrategy = "reverse_order" then completed.reverse else completed

/-- `WorkflowStep.interpolateParams(context)` (lines 94-97): deep-copy the
params (pure here) and interpolate every string leaf. -/
def interpolateParams (s : WorkflowStep) (ctx : Context) : JsonVal :=
  interpolateObject s.params (contextToJson ctx)

/-- Write the mutated step copy back into the context map. -/
def setStep (ctx : Context) (name : String) (sc : WorkflowStep) : Context :=
  { ctx with steps := setEntry ctx.steps name sc }

/-- Outcome of one attempt inside `OrchestrationEngine.executeStep`:
either the step finished (completed, failed-critical rethrowing, or
skipped), or the catch reset it to `PENDING` for another attempt. -/
inductive StepAttemptOut where
  | done (ctx : Context) (evs : List Event) (res : Except JsError Unit)
  | retryAt (ctx : Context) (sc : WorkflowStep) (evs : List Event)

/-- One attempt of `OrchestrationEngine.executeStep(context, step)`
(src/unnamed/part_000 lines 571-635): mark the context copy `RUNNING`,
bump `attempt`, make the attempt (an unavailable or unhealthy client
throws into the same catch as a failed call), and on error either reset to
`PENDING` for a retry (`attempt <= retries`), or finish `FAILED` (critical,
rethrowing the error) / `SKIPPED` (non-critical).  On success the result is
stored and the copy becomes `COMPLETED` (`setStepResult` writes the same
field a second time). -/
def stepAttempt (env : EngineEnv) (step : WorkflowStep) (ctx : Context)
    (sc : WorkflowStep) : StepAttemptOut :=
  let sc1 := { sc with state := .RUNNING, attempt := sc.attempt + 1 }
  let ctx1 := setStep ctx step.name sc1
  let ev0 := [Event.step_started step.name]
  let attemptRes : Except JsError JsonVal :=
    if ¬ env.mcpAvailable step.mcp then
      .error { message := s!"MCP not available: {step.mcp}", code := none }
    else if ¬ env.mcpHealthy step.mcp then
      .error { message := s!"MCP not healthy: {step.mcp}", code := none }
    else env.callTool sc1.attempt step.mcp step.action (interpolateParams step ctx1)
  match attemptRes with
  | .ok r =>
    let sc2 := { sc1 with result := some r, state := .COMPLETED }
    .done (setStep ctx1 step.name sc2) (ev0 ++ [Event.step_completed step.name]) (.ok ())
  | .error e =>
    let sc2 := { sc1 with error := some e.message }
    if sc1.attempt ≤ step.retries then
      let sc3 := { sc2 with state := .PENDING }
      .retryAt (setStep ctx1 step.name sc3) sc3 ev0
    else if step.critical then
      .done (setStep ctx1 step.name { sc2 with state := .FAILED })
        (ev0 ++ [Event.step_failed step.name]) (.error e)
    else
      .done (setStep ctx1 step.name { sc2 with state := .SKIPPED })
        (ev0 ++ [Event.step_skipped step.name]) (.ok ())

/-- The retry recursion of `executeStep`, as a fuel loop over
`stepAttempt`.  The recursion fires only while `attempt ≤ retries`, so the
callers' `retries + 1` fuel can never be exhausted and the fuel branch is
unreachable from `executeStep`.  (Written with `Nat.rec` so that concrete
runs evaluate by plain iota reduction.) -/
def executeStepGo (env : EngineEnv) (step : WorkflowStep) (fuel : Nat) :
    Context → WorkflowStep → Context × List Event × Except JsError Unit :=
  Nat.rec
    (motive := fun _ => Context → WorkflowStep → Context × List Event × Except JsError Unit)
    (fun ctx sc =>
      match stepAttempt env step ctx sc with
      | .done c evs r => (c, evs, r)
      | .retryAt c _ evs =>
        (c, evs, .error { message := "model: step retry fuel exhausted", code := none }))
    (fun _ ih ctx sc =>
      match stepAttempt env step ctx sc with
      | .done c evs r => (c, evs, r)
      | .retryAt c sc2 evs =>
        match ih c sc2 with
        | (c2, evs2, r) => (c2, evs ++ evs2, r))
    fuel

/-- `executeStep` launched by the scheduler: fetch the context copy and run
the attempt chain. -/
def executeStep (env : EngineEnv) (ctx : Context) (step : WorkflowStep) :
    Context × List Event × Except JsError Unit :=
  match lookupEntry ctx.steps step.name with
  | some sc => executeStepGo env step (step.retries + 1) ctx sc
  | none => (ctx, [], .error { message := "model: no step context", code := none })

/-- Run a batch of launched steps.  The scheduler launches them
concurrently and swallows their promise rejections
(`.then(...).catch(...)`, lines 538-542); this model serialises the batch
in launch order — one legal schedule — and accordingly drops each step's
`Except`: a failure is visible only through the recorded step state. -/
def runBatch (env : EngineEnv) : Context → List WorkflowStep → Context × List Event
  | ctx, [] => (ctx, [])
  | ctx, s :: rest =>
    match executeStep env ctx s with
    | (ctx1, evs1, _res) =>
      match runBatch env ctx1 rest with
      | (ctx2, evs2) => (ctx2, evs1 ++ evs2)

/-- The `remainingSteps` filter (lines 546-548): context steps still
`PENDING` or `RUNNING`. -/
def pendingOrRunning (ctx : Context) : List (String × WorkflowStep) :=
  ctx.steps.filter (fun p => p.2.state = StepState.PENDING ∨ p.2.state = StepState.RUNNING)

/-- The deadlock error thrown at src/unnamed/part_000 lines 553-555:
`Workflow deadlock - blocked steps: <comma-joined names>`. -/
def deadlockError (remaining : List (String × WorkflowStep)) : JsError :=
  let blocked := String.intercalate ", " (remaining.map (fun p => p.2.name))
  { message := s!"Workflow deadlock - blocked steps: {blocked}", code := none }

/-- `OrchestrationEngine.runWorkflowSteps` (src/unnamed/part_000 lines
522-566), serialised: each iteration recomputes the executable steps,
launches up to `maxConcurrent` of them, then checks for completion or
deadlock.  `fuel` bounds the modelled iterations of the polling loop (the
fuel error is a model artifact distinct from every code path). -/
def runStepsLoop (env : EngineEnv) (maxConcurrent : Nat) :
    Nat → Context → Context × List Event × Except JsError Unit
  | 0, ctx =>
    (ctx, [], .error { message := "model: scheduler fuel exhausted", code := none })
  | fuel + 1, ctx =>
    if ctx.state = WorkflowState.RUNNING then
      let executable := getExecutableSteps env ctx
      let batch := executable.take maxConcurrent
      match runBatch env ctx batch with
      | (ctx1, evs1) =>
        let remaining := pendingOrRunning ctx1
        if remaining.isEmpty then (ctx1, evs1, .ok ())
        else if executable.isEmpty then
          (ctx1, evs1, .error (deadlockError remaining))
        else
          match runStepsLoop env maxConcurrent fuel ctx1 with
          | (ctx2, evs2, res) => (ctx2, evs1 ++ evs2, res)
    else (ctx, [], .ok ())

/-- `Object.values(context.steps).every(step => !step.critical || step.state
=== COMPLETED)` (lines 477-479). -/
def allCriticalCompleted (ctx : Context) : Bool :=
  ctx.steps.all (fun p => !p.2.critical || p.2.state = StepState.COMPLETED)

/-- `OrchestrationEngine.collectWorkflowResult` (lines 730-745). -/
def collectWorkflowResult (ctx : Context) : JsonVal :=
  .obj (jobj
    [ ("workflowId", .str ctx.workflowId)
    , ("steps", .obj (jobj (ctx.steps.map (fun p => (p.1, JsonVal.obj (jobj
        [ ("state", .str (stepStateName p.2.state))
        , ("result", optResultJson p.2.result)
        , ("error", errorJson p.2.error) ])))))) ])

/-- The interpolation root `interpolateCompensationParams` builds (lines
692-705): the spread context plus a `compensation` subtree with the
original result and error of the step being compensated. -/
def compContextJson (ctx : Context) (sc : WorkflowStep) : JsonVal :=
  .obj ((spreadInto .nil (contextToJson ctx)).setField "compensation"
    (.obj (jobj
      [ ("originalResult", optResultJson sc.result)
      , ("originalError", errorJson sc.error) ])))

/-- The compensation loop body of `compensateWorkflow` (lines 651-682), one
step name at a time: skip names without a `compensation`; mark the context
copy `COMPENSATING`; skip (continue) when the target client is missing;
call the compensation action (target `compensation.mcp || step.mcp`) and on
success mark `COMPENSATED`, on failure emit the failure event and continue
— compensation is best-effort and never aborts the loop. -/
def compensateSteps (env : EngineEnv) : List String → Context → Context × List Event
  | [], ctx => (ctx, [])
  | name :: rest, ctx =>
    match lookupEntry ctx.steps name, lookupEntry ctx.workflow.steps name with
    | some sc, some origStep =>
      match origStep.compensation with
      | none => compensateSteps env rest ctx
      | some comp =>
        let sc1 := { sc with state := .COMPENSATING }
        let ctx1 := setStep ctx name sc1
        let evh := [Event.step_compensation_started name]
        let target :=
          match comp.mcp with
          | some m => if m ≠ "" then m else origStep.mcp
          | none => origStep.mcp
        if ¬ env.mcpAvailable target then
          match compensateSteps env rest ctx1 with
          | (ctx2, evs) => (ctx2, evh ++ evs)
        else
          let params := interpolateObject comp.params (compContextJson ctx1 sc1)
          match env.callTool 0 target comp.action params with
          | .ok _ =>
            match compensateSteps env rest (setStep ctx1 name { sc1 with state := .COMPENSATED }) with
            | (ctx2, evs) => (ctx2, evh ++ [Event.step_compensated name] ++ evs)
          | .error _ =>
            match compensateSteps env rest ctx1 with
            | (ctx2, evs) => (ctx2, evh ++ [Event.step_compensation_failed name] ++ evs)
    | _, _ => compensateSteps env rest ctx

/-- `OrchestrationEngine.compensateWorkflow(context)` (src/unnamed/part_000
lines 640-687): no-op when already `COMPENSATING`; otherwise mark
`COMPENSATING`, walk `getCompensationOrder()` — computed from the
*workflow's own* step objects — and finish `COMPENSATED`. -/
def compensateWorkflow (env : EngineEnv) (ctx : Context) : Context × List Event :=
  if ctx.state = WorkflowState.COMPENSATING then (ctx, [])
  else
    let ctx1 := { ctx with state := .COMPENSATING }
    let order := getCompensationOrder ctx1.workflow
    match compensateSteps env order ctx1 with
    | (ctx2, evs) =>
      ({ ctx2 with state := .COMPENSATED },
        [Event.workflow_compensation_started ctx.workflowId] ++ evs ++
          [Event.workflow_compensated ctx.workflowId])

/-- The catch-branch of `executeWorkflowContext` (lines 489-497): record
the error, mark `FAILED`, compensate, and rethrow. -/
def failWorkflowPath (env : EngineEnv) (ctx : Context) (e : JsError) :
    Context × List Event × Except JsError JsonVal :=
  match compensateWorkflow env { ctx with error := some e.message, state := .FAILED } with
  | (ctx2, evs) => (ctx2, evs, .error e)

/-- Result of one `executeWorkflowContext` run: the engine's `active` and
`history` maps after the finally-block, the final context, the events in
emission order, and the value returned or error thrown to the caller. -/
structure WfRunResult where
  active : List (String × Context)
  history : List (String × Context)
  ctx : Context
  events : List Event
  outcome : Except JsError JsonVal

/-- `OrchestrationEngine.executeWorkflowContext(context)` (src/unnamed/
part_000 lines 465-517): mark `RUNNING`, run the scheduler loop, then
either finish `COMPLETED` with the collected result or take the failure
path (`FAILED` → compensation → rethrow); the `finally` block always moves
the context from `active` to `history` and emits `workflow_completed`,
whatever the outcome.  The workflow-timeout timer (lines 469-471) is
wall-clock cancellation and is not modelled. -/
def executeWorkflowContext (env : EngineEnv) (maxConcurrent fuel : Nat)
    (active history : List (String × Context)) (ctx0 : Context) : WfRunResult :=
  match runStepsLoop env maxConcurrent fuel { ctx0 with state := .RUNNING } with
  | (ctxr, evsr, runRes) =>
    match
      (match runRes with
       | .ok _ =>
         if allCriticalCompleted ctxr then
           ({ ctxr with state := .COMPLETED, result := some (collectWorkflowResult ctxr) },
             ([] : List Event), Except.ok (collectWorkflowResult ctxr))
         else
           failWorkflowPath env ctxr
             { message := "Not all critical steps completed successfully", code := none }
       | .error e => failWorkflowPath env ctxr e) with
    | (ctxf, evsa, outcome) =>
      { active := eraseEntry active ctxf.workflowId
        history := setEntry history ctxf.workflowId ctxf
        ctx := ctxf
        events := evsr ++ evsa ++ [Event.workflow_completed ctxf.workflowId]
        outcome := outcome }

/-!  Observation helpers and the concrete scenario data the claim theorems
evaluate the model on. -/

/-- Is the outcome an error? -/
def exceptIsError {ε α : Type} : Except ε α → Bool
  | .error _ => true
  | .ok _ => false

/-- An environment whose `new Function` oracle evaluates every condition
falsy, with available healthy clients that answer every call. -/
def envFalseCond : EngineEnv :=
  { evalJs := fun _ => false
    mcpAvailable := fun _ => true
    mcpHealthy := fun _ => true
    callTool := fun _ _ _ _ => .ok (.obj .nil) }

/-- One step guarded by a condition (no dependencies, so they are trivially
all `COMPLETED`). -/
def step1 : WorkflowStep :=
  { defStep with name := "s1", mcp := "m", action := "a", condition := some "false" }

/-- The C1 workflow: only `step1`. -/
def wfC1 : Workflow := mkWorkflow "wf1" [step1]

/-- A C1-style context already in the scheduler (state `RUNNING`). -/
def ctxC1run : Context := { mkContext "id1" wfC1 (.obj .nil) with state := .RUNNING }

/-- Full C1 execution. -/
def runC1 : WfRunResult :=
  executeWorkflowContext envFalseCond 50 5 [] [] (mkContext "id1" wfC1 (.obj .nil))

/-- Environment for the saga scenario: only the tool `act_c` fails. -/
def envC2 : EngineEnv :=
  { evalJs := fun _ => true
    mcpAvailable := fun _ => true
    mcpHealthy := fun _ => true
    callTool := fun _ _ action _ =>
      if action = "act_c" then .error { message := "boom", code := none }
      else .ok (.obj (jobj [("ok", .bool true)])) }

/-- Compensation of step A. -/
def compA : Compensation := { mcp := none, action := "undo_a", params := .obj .nil }

/-- Compensation of step B. -/
def compB : Compensation := { mcp := none, action := "undo_b", params := .obj .nil }

/-- Step A: runs after B, has a compensation. -/
def stepA : WorkflowStep :=
  { defStep with
      name := "A"
      mcp := "m"
      action := "act_a"
      dependsOn := ["B"]
      compensation := some compA }

/-- Step B: no dependencies, has a compensation. -/
def stepB : WorkflowStep :=
  { defStep with name := "B", mcp := "m", action := "act_b", compensation := some compB }

/-- Step C: critical, depends on A, always fails. -/
def stepC : WorkflowStep :=
  { defStep with name := "C", mcp := "m", action := "act_c", dependsOn := ["A"] }

/-- The saga workflow A → B → C in definition order `[A, B, C]`, where B
completes first, then A, then C fails critically. -/
def wfC2 : Workflow := mkWorkflow "wf2" [stepA, stepB, stepC]

/-- Full saga execution: B and A complete (with compensations defined), C
fails, the workflow compensates. -/
def runC2 : WfRunResult :=
  executeWorkflowContext envC2 50 10 [] [] (mkContext "id2" wfC2 (.obj .nil))

/-- `true` exactly on the step-compensation events. -/
def isCompEvent : Event → Bool
  | .step_compensation_started _ => true
  | .step_compensated _ => true
  | .step_compensation_failed _ => true
  | _ => false

/-- Environment whose every tool call fails (non-retryable message). -/
def envFail : EngineEnv :=
  { evalJs := fun _ => true
    mcpAvailable := fun _ => true
    mcpHealthy := fun _ => true
    callTool := fun _ _ _ _ => .error { message := "nope", code := none } }

/-- A critical step with two retries. -/
def stepR2 : WorkflowStep :=
  { defStep with name := "s", mcp := "m", action := "a", retries := 2 }

/-- Fresh context for `stepR2`. -/
def ctxR2 : Context := mkContext "id3" (mkWorkflow "wf3" [stepR2]) (.obj .nil)

/-- One scheduler launch of the always-failing critical step. -/
def launchR2 : Context × List Event × Except JsError Unit :=
  executeStep envFail ctxR2 stepR2

/-- The same step, non-critical. -/
def stepR2n : WorkflowStep := { stepR2 with critical := false }

/-- Fresh context for `stepR2n`. -/
def ctxR2n : Context := mkContext "id4" (mkWorkflow "wf4" [stepR2n]) (.obj .nil)

/-- One scheduler launch of the always-failing non-critical step. -/
def launchR2n : Context × List Event × Except JsError Unit :=
  executeStep envFail ctxR2n stepR2n

/-- Environment for the retry-bound workflow: only the tool `bad` fails. -/
def envC8 : EngineEnv :=
  { evalJs := fun _ => true
    mcpAvailable := fun _ => true
    mcpHealthy := fun _ => true
    callTool := fun _ _ action _ =>
      if action = "bad" then .error { message := "nope", code := none }
      else .ok (.obj .nil) }

/-- Non-critical always-failing step with `retries = 0`. -/
def stepS1 : WorkflowStep :=
  { defStep with name := "S1", mcp := "m", action := "bad", critical := false }

/-- A succeeding step. -/
def stepS2 : WorkflowStep := { defStep with name := "S2", mcp := "m", action := "good" }

/-- A step after S2, keeping the loop alive one more iteration. -/
def stepS3 : WorkflowStep :=
  { defStep with name := "S3", mcp := "m", action := "good", dependsOn := ["S2"] }

/-- Workflow `[S1, S2, S3]`. -/
def wfC8 : Workflow := mkWorkflow "wf8" [stepS1, stepS2, stepS3]

/-- Full execution of `wfC8`. -/
def runC8 : WfRunResult :=
  executeWorkflowContext envC8 50 10 [] [] (mkContext "id8" wfC8 (.obj .nil))

/-- An always-failing retryable call outcome (`ETIMEDOUT` is in the
retryable set). -/
def fnFail : Nat → Except JsError JsonVal :=
  fun _ => .error { message := "connect ETIMEDOUT", code := some "ETIMEDOUT" }

/-- Client with `failure_threshold = 2` and `max_retries = 3`. -/
def cl3 : MCPClientState :=
  { breaker := CircuitBreaker.make 2 100 10000, maxRetries := 3
    requests := 0, successes := 0, failures := 0 }

/-- An always-failing non-retryable call outcome. -/
def fnBoom : Nat → Except JsError JsonVal :=
  fun _ => .error { message := "boom", code := none }

/-- Client with `failure_threshold = 2`, no retries. -/
def cl4a : MCPClientState :=
  { breaker := CircuitBreaker.make 2 100 10000, maxRetries := 0
    requests := 0, successes := 0, failures := 0 }

/-- After one failed call at `t = 0` (counter 1, still `CLOSED`). -/
def cl4b : MCPClientState := (callTool 0 cl4a fnBoom).1

/-- After a second failed call at `t = 10`: threshold reached, `OPEN`,
`next_attempt = 110`. -/
def cl4c : MCPClientState := (callTool 10 cl4b fnBoom).1

/-- The monitoring timer then resets the rolling counters. -/
def cl4d : MCPClientState := { cl4c with breaker := cl4c.breaker.monitoringTick }

/-- A probe at `t = 200 ≥ 110` enters `HALF_OPEN` and fails. -/
def cl4e : MCPClientState := (callTool 200 cl4d fnBoom).1

/-- A client sitting `OPEN` before its `next_attempt`. -/
def clOpen : MCPClientState :=
  { breaker := { CircuitBreaker.make 2 100 10000 with
                   state := .OPEN, nextAttempt := some 1000 }
    maxRetries := 3, requests := 0, successes := 0, failures := 0 }

/-- No environment variables set. -/
def noEnv : String → Option String := fun _ => none

/-- A small valid registry with one MCP `alpha`. -/
def regOk : JsonVal :=
  .obj (jobj [("mcps", .obj (jobj [("alpha", .obj (jobj
    [ ("name", .str "alpha"), ("version", .str "1.0.0")
    , ("endpoints", .obj (jobj [("primary", .obj (jobj
        [("protocol", .str "http"), ("url", .str "http://a:1")]))]))
    , ("capabilities", .arr .nil), ("tools", .arr .nil)]))]))])

/-- The same registry with a string `capabilities` — a validation error. -/
def regBad : JsonVal :=
  .obj (jobj [("mcps", .obj (jobj [("alpha", .obj (jobj
    [ ("name", .str "alpha"), ("version", .str "1.0.0")
    , ("endpoints", .obj (jobj [("primary", .obj (jobj
        [("protocol", .str "http"), ("url", .str "http://a:1")]))]))
    , ("capabilities", .str "nope"), ("tools", .arr .nil)]))]))])

/-- A fresh discovery service. -/
def st0 : DiscoveryState :=
  { environment := "development", registry := none, mcpCache := []
    registryReloads := 0, errors := 0, mcpsDiscovered := 0, lastReload := none }

/-- After the initial successful load of `regOk`. -/
def st1 : DiscoveryState := (loadRegistry 1 noEnv (.ok regOk) st0).1

/-- After environment discovery registered the auxiliary MCP `extra`. -/
def st2 : DiscoveryState :=
  (startEnvironmentDiscovery [("MCP_EXTRA_ENDPOINT", "http://x:9")] 5 st1).1

/-- A second successful file reload of the unchanged `regOk`. -/
def reload2 : DiscoveryState × Except String (List DiscEvent) :=
  loadRegistry 9 noEnv (.ok regOk) st2

/-- A descriptor that has never been health-checked. -/
def mcpNoHealth : JsonVal := .obj (jobj [("name", .str "a")])

/-- A descriptor marked unhealthy. -/
def mcpUnhealthy : JsonVal :=
  .obj (jobj [("name", .str "b"), ("healthy", .bool false)])

/-- A cache holding both. -/
def stHealth : DiscoveryState :=
  { st0 with mcpCache := [("a", mcpNoHealth), ("b", mcpUnhealthy)] }

/-- Context for C7: `steps.X.result = {y: 7}`. -/
def ctxJson7 : JsonVal :=
  .obj (jobj [("steps", .obj (jobj [("X", .obj (jobj
    [("result", .obj (jobj [("y", .num 7)]))]))]))])

/-- Context for the C7 witness: `steps.X.result = {y: "hello"}`. -/
def ctxJsonHello : JsonVal :=
  .obj (jobj [("steps", .obj (jobj [("X", .obj (jobj
    [("result", .obj (jobj [("y", .str "hello")]))]))]))])

/-- A client `OPEN` with `next_attempt = 10`, threshold 2, counters reset —
probed after the reset timeout. -/
def clProbe : MCPClientState :=
  { breaker := { CircuitBreaker.make 2 100 10000 with
                   state := .OPEN, nextAttempt := some 10 }
    maxRetries := 0, requests := 0, successes := 0, failures := 0 }

/-- The cached merged descriptor of `alpha` after the first load. -/
def valueAlpha : JsonVal := (lookupEntry st1.mcpCache "alpha").getD .null

/-!  Shared lemmas. -/

theorem spanToBrace_append (p r : List Char) (hp : '}' ∉ p) :
    spanToBrace (p ++ '}' :: r) = some (p, r) := by
  induction p with
  | nil => simp [spanToBrace]
  | cons c tl ih =>
    have hc : c ≠ '}' := by intro h; exact hp (by simp [h])
    have htl : '}' ∉ tl := by intro h; exact hp (by simp [h])
    simp [spanToBrace, hc, ih htl]

theorem replaceBracedGo_id (lookup : String → Option JsonVal) :
    ∀ (cs : List Char) (fuel : Nat), hasBracedTok cs = false →
      replaceBracedGo lookup fuel cs = cs := by
  intro cs
  induction cs with
  | nil => intro fuel _; cases fuel <;> rfl
  | cons c rest ih =>
    intro fuel h
    rw [hasBracedTok, Bool.or_eq_false_iff] at h
    obtain ⟨h1, h2⟩ := h
    cases fuel with
    | zero => rfl
    | succ n =>
      rw [replaceBracedGo]
      by_cases hc : c = '$'
      · have hnone : tryBraced rest = none := by
          subst hc
          simp only [decide_True, Bool.true_and] at h1
          exact Option.not_isSome_iff_eq_none.mp (by simp [h1])
        simp [hc, hnone, ih _ h2]
      · simp [hc, ih _ h2]

theorem replaceBareGo_id (lookup : String → Option JsonVal) :
    ∀ (cs : List Char) (fuel : Nat), hasBareTok cs = false →
      replaceBareGo lookup fuel cs = cs := by
  intro cs
  induction cs with
  | nil => intro fuel _; cases fuel <;> rfl
  | cons c rest ih =>
    intro fuel h
    rw [hasBareTok, Bool.or_eq_false_iff] at h
    obtain ⟨h1, h2⟩ := h
    cases fuel with
    | zero => rfl
    | succ n =>
      rw [replaceBareGo]
      by_cases hc : c = '$'
      · have hnone : parseIdentPath rest = none := by
          subst hc
          simp only [decide_True, Bool.true_and] at h1
          exact Option.not_isSome_iff_eq_none.mp (by simp [h1])
        simp [hc, hnone, ih _ h2]
      · simp [hc, ih _ h2]

theorem noDollar_hasBareTok {cs : List Char} (h : cs.all (· ≠ '$') = true) :
    hasBareTok cs = false := by
  induction cs with
  | nil => rfl
  | cons c rest ih =>
    simp only [List.all_cons, Bool.and_eq_true, decide_eq_true_eq] at h
    rw [hasBareTok, Bool.or_eq_false_iff]
    refine ⟨?_, ih (by simpa using h.2)⟩
    simp [h.1]

theorem interpolateString_id (s : String) (ctx : JsonVal)
    (hb : hasBracedTok s.data = false) (hr : hasBareTok s.data = false) :
    interpolateString s ctx = s := by
  simp only [interpolateString]
  rw [replaceBracedGo_id _ _ _ hb, replaceBareGo_id _ _ _ hr]

theorem replaceBracedGo_exact (lookup : String → Option JsonVal)
    (path : List Char) (V : JsonVal)
    (hp : '}' ∉ path) (hne : path ≠ []) (h : lookup (String.mk path) = some V) :
    replaceBracedGo lookup (path.length + 3) ('$' :: '{' :: (path ++ ['}'])) =
      (jsToString V).data := by
  have hspan : spanToBrace (path ++ ['}']) = some (path, []) := by
    simpa using spanToBrace_append path [] hp
  have htry : tryBraced ('{' :: (path ++ ['}'])) = some (path, []) := by
    rw [tryBraced]
    simp [hspan, hne]
  rw [replaceBracedGo]
  simp only [if_pos rfl, htry, h]
  rw [show path.length + 2 = path.length + 1 + 1 from rfl, replaceBracedGo]
  simp

theorem lookupEntry_setEntry_self {α : Type} (m : List (String × α)) (k : String) (v : α) :
    lookupEntry (setEntry m k v) k = some v := by
  induction m with
  | nil => simp [setEntry, lookupEntry]
  | cons p tl ih =>
    obtain ⟨k0, v0⟩ := p
    by_cases h : k0 = k
    · simp [setEntry, h, lookupEntry]
    · simp [setEntry, h, lookupEntry, ih]

theorem lookupEntry_setEntry_ne {α : Type} (m : List (String × α)) {k name : String}
    (h : k ≠ name) (v : α) :
    lookupEntry (setEntry m k v) name = lookupEntry m name := by
  induction m with
  | nil => simp [setEntry, lookupEntry, h]
  | cons p tl ih =>
    obtain ⟨k0, v0⟩ := p
    by_cases h0 : k0 = k
    · subst h0
      simp [setEntry, lookupEntry, h]
    · simp [setEntry, h0, lookupEntry, ih]

theorem lookupEntry_eraseEntry_self {α : Type} (m : List (String × α)) (k : String) :
    lookupEntry (eraseEntry m k) k = none := by
  induction m with
  | nil => rfl
  | cons p tl ih =>
    obtain ⟨k0, v0⟩ := p
    by_cases h : k0 = k
    · simpa [eraseEntry, h] using ih
    · simpa [eraseEntry, h, lookupEntry] using ih

theorem lookupEntry_map_isSome {β γ : Type} (l : List (String × β))
    (f : String × β → γ) (k : String)
    (h : (lookupEntry (l.map (fun p => (p.1, f p))) k).isSome = true) :
    k ∈ l.map Prod.fst := by
  induction l with
  | nil => simp [lookupEntry] at h
  | cons p tl ih =>
    obtain ⟨k0, v0⟩ := p
    by_cases h0 : k0 = k
    · simp [h0]
    · simp only [List.map_cons, lookupEntry, h0, if_neg h0] at h
      simpa using Or.inr (ih h)

theorem retryGo_allFail (fn : Nat → Except JsError JsonVal)
    (hf : ∀ n, ∃ e, fn n = Except.error e) :
    ∀ (r a : Nat), ∃ e att, retryGo fn r a = (Except.error e, att) := by
  intro r
  induction r with
  | zero =>
    intro a
    obtain ⟨e, he⟩ := hf a
    exact ⟨e, a + 1, by rw [retryGo, he]⟩
  | succ n ih =>
    intro a
    obtain ⟨e, he⟩ := hf a
    by_cases hr : isRetryableError e = true
    · obtain ⟨e2, att2, h2⟩ := ih (a + 1)
      exact ⟨e2, att2, by rw [retryGo, he]; simp [hr, h2]⟩
    · exact ⟨e, a + 1, by rw [retryGo, he]; simp [hr]⟩


theorem envDiscStep_preserves (now : Nat) (acc : DiscoveryState × List DiscEvent)
    (kv : String × String) (n : String) (v : JsonVal)
    (h : lookupEntry acc.1.mcpCache n = some v) :
    lookupEntry (envDiscStep now acc kv).1.mcpCache n = some v := by
  unfold envDiscStep
  by_cases hc : (lookupEntry acc.1.mcpCache (envVarMcpName kv.1)).isSome = true
  · simpa [hc] using h
  · have hne : envVarMcpName kv.1 ≠ n := by
      intro he
      rw [he, h] at hc
      simp at hc
    simp only [hc, if_false, Bool.false_eq_true]
    rw [lookupEntry_setEntry_ne _ hne]
    exact h

theorem foldl_envDiscStep_preserves (now : Nat) (l : List (String × String))
    (acc : DiscoveryState × List DiscEvent) (n : String) (v : JsonVal)
    (h : lookupEntry acc.1.mcpCache n = some v) :
    lookupEntry (l.foldl (envDiscStep now) acc).1.mcpCache n = some v := by
  induction l generalizing acc with
  | nil => exact h
  | cons kv tl ih => exact ih _ (envDiscStep_preserves now acc kv n v h)


/-!  Claim theorems. -/

/-- C7 (counterexample): with `steps.X.result = {y: 7}`, interpolating the
string `"${steps.X.result.y}"` yields the *string* `"7"`, not the number
`7`: `String.prototype.replace` coerces the replacement to a string, so
the claimed type preservation fails at every non-string value. -/
theorem c7_counterexample :
    interpolateObject (.str "${steps.X.result.y}") ctxJson7 = .str "7" ∧
      JsonVal.str "7" ≠ JsonVal.num 7 :=
  ⟨rfl, fun h => nomatch h⟩

/-- C7 (amended): interpolating `"${steps.X.result.y}"` in a context where
`steps.X.result = {y: V}` yields the JavaScript string rendering of `V`
(stated for renderings without `'$'`, which the second replacement pass
would otherwise rescan); and interpolating a string containing zero
interpolation tokens — no `${…}` match and no bare `$identifier` match —
is the identity. -/
theorem c7_amended :
    (∀ (ctx V : JsonVal), getNestedValue ctx "steps.X.result.y" = some V →
      (jsToString V).data.all (· ≠ '$') = true →
      interpolateString "${steps.X.result.y}" ctx = jsToString V)
  ∧ (∀ (s : String) (ctx : JsonVal), hasBracedTok s.data = false →
      hasBareTok s.data = false → interpolateString s ctx = s) := by
  constructor
  · intro ctx V h hv
    have hdata : ("${steps.X.result.y}" : String).data =
        '$' :: '{' :: ("steps.X.result.y".data ++ ['}']) := by decide
    have hmk : String.mk "steps.X.result.y".data = "steps.X.result.y" := rfl
    have h1 : replaceBracedGo (fun p => getNestedValue ctx p)
        (("${steps.X.result.y}" : String).data.length)
        (("${steps.X.result.y}" : String).data) = (jsToString V).data := by
      rw [hdata]
      have hlen : ('$' :: '{' :: ("steps.X.result.y".data ++ ['}'])).length =
          ("steps.X.result.y".data).length + 3 := by simp
      rw [hlen]
      exact replaceBracedGo_exact _ _ V (by decide) (by decide) (by rw [hmk]; exact h)
    simp only [interpolateString]
    rw [h1, replaceBareGo_id _ _ _ (noDollar_hasBareTok hv)]
  · intro s ctx hb hr
    exact interpolateString_id s ctx hb hr

/-- C7 (witness): both parts of the amended claim at concrete inputs. -/
theorem c7_witness :
    interpolateString "${steps.X.result.y}" ctxJsonHello = "hello" ∧
      interpolateString "plain text" ctxJson7 = "plain text" :=
  ⟨c7_amended.1 ctxJsonHello (.str "hello") rfl rfl,
   c7_amended.2 "plain text" ctxJson7 rfl rfl⟩

/-- C5: a registry reload whose content fails to parse or fails validation
is rejected as a whole: the previously loaded registry and the descriptor
cache remain exactly as they were (only the error metric moves), so no
descriptor is partially updated. -/
theorem c5_reload_failure_keeps_registry (now : Nat)
    (envLU : String → Option String) (parsed : Except String JsonVal)
    (st : DiscoveryState)
    (h : exceptIsError (loadRegistry now envLU parsed st).2 = true) :
    (loadRegistry now envLU parsed st).1.registry = st.registry ∧
      (loadRegistry now envLU parsed st).1.mcpCache = st.mcpCache := by
  match parsed with
  | .error e => exact ⟨rfl, rfl⟩
  | .ok newReg =>
    match hv : validateRegistry newReg with
    | .error e => simp [loadRegistry, hv]
    | .ok reg =>
      simp only [loadRegistry, hv, exceptIsError] at h
      exact (Bool.false_ne_true h).elim

/-- C5 (witness): a reload of `regBad` (string `capabilities`) fails and
leaves the registry and cache of `st1` untouched. -/
theorem c5_witness :
    (loadRegistry 2 noEnv (.ok regBad) st1).1.registry = st1.registry ∧
      (loadRegistry 2 noEnv (.ok regBad) st1).1.mcpCache = st1.mcpCache :=
  c5_reload_failure_keeps_registry 2 noEnv (.ok regBad) st1 rfl

/-- C9: a cached descriptor is listed by `getHealthyMcps` exactly when its
`healthy` field is not the boolean `false`; in particular a descriptor with
no `healthy` field (never health-checked) is reported healthy. -/
theorem c9_healthy_iff (st : DiscoveryState) (m : JsonVal)
    (hm : m ∈ st.mcpCache.map Prod.snd) :
    (m ∈ getHealthyMcps st ↔ jsProp m "healthy" ≠ some (JsonVal.bool false))
  ∧ (jsProp m "healthy" = none → m ∈ getHealthyMcps st) := by
  have hiff : healthyFilter m = true ↔ jsProp m "healthy" ≠ some (JsonVal.bool false) := by
    unfold healthyFilter
    cases hp : jsProp m "healthy" with
    | none => simp
    | some v =>
      cases v with
      | bool b => cases b <;> simp
      | null => simp
      | num n => simp
      | str s => simp
      | arr xs => simp
      | obj fs => simp
  constructor
  · rw [getHealthyMcps, List.mem_filter]
    constructor
    · intro hmem
      exact hiff.mp hmem.2
    · intro hne
      exact ⟨hm, hiff.mpr hne⟩
  · intro hnone
    rw [getHealthyMcps, List.mem_filter]
    refine ⟨hm, ?_⟩
    rw [healthyFilter, hnone]

/-- C9 (witness): the never-checked descriptor is listed, the one marked
`healthy: false` is not. -/
theorem c9_witness :
    mcpNoHealth ∈ getHealthyMcps stHealth ∧ ¬ mcpUnhealthy ∈ getHealthyMcps stHealth :=
  ⟨(c9_healthy_iff stHealth mcpNoHealth (by simp [stHealth, mcpNoHealth])).2 rfl,
   fun hmem =>
     ((c9_healthy_iff stHealth mcpUnhealthy (by simp [stHealth, mcpUnhealthy])).1.mp hmem) rfl⟩

/-- C10: whatever terminal state a workflow execution reaches — `COMPLETED`
on success, or `FAILED`/`COMPENSATED` through the catch path —
`executeWorkflowContext`'s finally block always emits `workflow_completed`
and moves the context from the active map into history, so observing
`workflow_completed` alone cannot distinguish success from failure. -/
theorem c10_completed_event_always (env : EngineEnv) (maxConcurrent fuel : Nat)
    (active history : List (String × Context)) (ctx : Context) :
    Event.workflow_completed
        (executeWorkflowContext env maxConcurrent fuel active history ctx).ctx.workflowId ∈
      (executeWorkflowContext env maxConcurrent fuel active history ctx).events
  ∧ lookupEntry (executeWorkflowContext env maxConcurrent fuel active history ctx).history
      (executeWorkflowContext env maxConcurrent fuel active history ctx).ctx.workflowId =
      some (executeWorkflowContext env maxConcurrent fuel active history ctx).ctx
  ∧ lookupEntry (executeWorkflowContext env maxConcurrent fuel active history ctx).active
      (executeWorkflowContext env maxConcurrent fuel active history ctx).ctx.workflowId =
      none := by
  refine ⟨?_, ?_, ?_⟩ <;> simp only [executeWorkflowContext]
  · simp
  · exact lookupEntry_setEntry_self _ _ _
  · exact lookupEntry_eraseEntry_self _ _

/-- C1 (counterexample): in `runC1` the single step's condition evaluates to
`false` under the oracle while its (empty) dependency set is trivially all
`COMPLETED`; after the whole execution the step is still `PENDING` — it was
never transitioned to `SKIPPED` — and the run failed with the deadlock
error. -/
theorem c1_counterexample :
    envFalseCond.evalJs (interpolateString "false" (contextToJson ctxC1run)) = false
  ∧ step1.dependsOn = []
  ∧ (lookupEntry runC1.ctx.steps "s1").map (fun s => s.state) = some StepState.PENDING
  ∧ some StepState.PENDING ≠ some StepState.SKIPPED
  ∧ runC1.outcome =
      Except.error { message := "Workflow deadlock - blocked steps: s1", code := none } :=
  ⟨rfl, rfl, rfl, by decide, rfl⟩

/-- C1 (amended): a `PENDING` step whose interpolated condition evaluates
false is simply not selected — every step `getExecutableSteps` returns has
a truthy condition — and when no step is executable while steps remain
`PENDING`/`RUNNING`, `runWorkflowSteps` throws the deadlock error with the
context unchanged: a false condition never transitions the step to
`SKIPPED`; it leaves it `PENDING` until the deadlock check fails the
workflow. -/
theorem c1_amended (env : EngineEnv) (ctx : Context) :
    (∀ s ∈ getExecutableSteps env ctx,
      (match s.condition with
       | some c => evaluateCondition env c ctx
       | none => true) = true)
  ∧ (ctx.state = WorkflowState.RUNNING → getExecutableSteps env ctx = [] →
      (pendingOrRunning ctx).isEmpty = false → ∀ maxConcurrent fuel,
        runStepsLoop env maxConcurrent (fuel + 1) ctx =
          (ctx, [], Except.error (deadlockError (pendingOrRunning ctx)))) := by
  constructor
  · intro s hs
    rw [getExecutableSteps, List.mem_filterMap] at hs
    obtain ⟨n, _, hf⟩ := hs
    cases hl : lookupEntry ctx.workflow.steps n with
    | none => rw [hl] at hf; exact absurd hf (by simp)
    | some s0 =>
      rw [hl] at hf
      dsimp only at hf
      by_cases hcond : s0.state = StepState.PENDING ∧ canExecute env s0 ctx = true
      · rw [if_pos hcond] at hf
        obtain rfl : s0 = s := by simpa using hf
        have h2 := hcond.2
        rw [canExecute, Bool.and_eq_true] at h2
        exact h2.2
      · rw [if_neg hcond] at hf
        exact absurd hf (by simp)
  · intro hrun hexec hrem maxConcurrent fuel
    rw [runStepsLoop]
    rw [if_pos hrun, hexec]
    simp only [List.take_nil, runBatch]
    rw [if_neg (by simp [hrem])]
    simp

/-- C1 (witness): the amended deadlock conclusion at the concrete
false-condition context. -/
theorem c1_amended_witness :
    runStepsLoop envFalseCond 50 5 ctxC1run =
      (ctxC1run, [], Except.error (deadlockError (pendingOrRunning ctxC1run))) :=
  (c1_amended envFalseCond ctxC1run).2 rfl rfl rfl 50 4

/-- C2 (the code evaluated at the failing input): in `runC2` the context
copies of A and B end `COMPLETED` and both steps define compensations, the
workflow ends `COMPENSATED` — yet `getCompensationOrder`, which filters the
workflow's *own* step objects whose states are never updated during a run,
returns the empty list, and no compensation event is emitted: no
compensation action executes at all, in any order. -/
theorem c2_failing_run :
    (lookupEntry runC2.ctx.steps "A").map (fun s => s.state) = some StepState.COMPLETED
  ∧ (lookupEntry runC2.ctx.steps "B").map (fun s => s.state) = some StepState.COMPLETED
  ∧ stepA.compensation.isSome = true
  ∧ stepB.compensation.isSome = true
  ∧ runC2.ctx.state = WorkflowState.COMPENSATED
  ∧ getCompensationOrder runC2.ctx.workflow = []
  ∧ runC2.events.filter isCompEvent = [] :=
  ⟨rfl, rfl, rfl, rfl, rfl, rfl, rfl⟩

/-- C8 (the code evaluated at the failing input): a single scheduler launch
of an always-failing step does attempt it exactly `retries + 1` times and
then marks it `FAILED` (critical) or `SKIPPED` (non-critical); but across
the `runC8` execution the non-critical always-failing step `S1` with
`retries = 0` is attempted twice — the scheduler re-launches the already
terminal step because executable-step selection reads the workflow's own
step objects, which stay `PENDING`. -/
theorem c8_failing_run :
    (lookupEntry launchR2.1.steps "s").map (fun s => s.attempt) = some (stepR2.retries + 1)
  ∧ (lookupEntry launchR2.1.steps "s").map (fun s => s.state) = some StepState.FAILED
  ∧ (lookupEntry launchR2n.1.steps "s").map (fun s => s.state) = some StepState.SKIPPED
  ∧ stepS1.retries = 0
  ∧ (lookupEntry runC8.ctx.steps "S1").map (fun s => s.attempt) = some 2
  ∧ (2 : Nat) ≠ 0 + 1
  ∧ (lookupEntry runC8.ctx.steps "S1").map (fun s => s.state) = some StepState.SKIPPED :=
  ⟨rfl, rfl, rfl, rfl, rfl, by decide, rfl⟩

/-- C3 (counterexample): with `max_retries = 3`, `failure_threshold = 2` and
a call that always fails with a retryable error, one `callTool` invocation
runs the call 4 times but the breaker records only ONE failure and stays
`CLOSED` below its threshold: the circuit breaker wraps the whole retry
loop (`circuitBreaker.execute(() => this.executeWithRetry(...))`), not the
individual attempts, so "each failed attempt is counted by the breaker" is
false. -/
theorem c3_counterexample :
    (callTool 0 cl3 fnFail).2.2 = 4
  ∧ (callTool 0 cl3 fnFail).1.breaker.totalFailures = 1
  ∧ (callTool 0 cl3 fnFail).1.breaker.failures = 1
  ∧ (callTool 0 cl3 fnFail).1.breaker.state = CBState.CLOSED
  ∧ cl3.breaker.failureThreshold = 2
  ∧ (1 : Nat) ≠ 4 :=
  ⟨rfl, rfl, rfl, rfl, rfl, by decide⟩

/-- C3 (amended): `circuitBreaker.execute` wraps ONE call to
`executeWithRetry`, so (1) a whole `callTool` invocation — however many
attempts its retry loop makes — moves the breaker's failure count by at
most one; and (2) the breaker's `OPEN`-before-`next_attempt` rejection
applies to the whole invocation: it surfaces the `CIRCUIT_BREAKER_OPEN`
error and the underlying call is not attempted at all. -/
theorem c3_amended (now : Nat) (cl : MCPClientState)
    (fn : Nat → Except JsError JsonVal) :
    (callTool now cl fn).1.breaker.totalFailures ≤ cl.breaker.totalFailures + 1
  ∧ (cl.breaker.state = CBState.OPEN → ∀ t, cl.breaker.nextAttempt = some t →
      now < t →
      (callTool now cl fn).2.1 = .error circuitOpenError ∧
        (callTool now cl fn).2.2 = 0) := by
  constructor
  · have hOS : ∀ cb : CircuitBreaker,
        (cb.onSuccess).totalFailures = cb.totalFailures := by
      intro cb
      simp only [CircuitBreaker.onSuccess]
      split <;> rfl
    have hOF : ∀ cb : CircuitBreaker,
        (cb.onFailure now).totalFailures = cb.totalFailures + 1 := by
      intro cb
      simp only [CircuitBreaker.onFailure]
      split <;> rfl
    simp only [callTool]
    rcases hE : executeWithRetry cl.maxRetries fn with ⟨res, att⟩
    cases res with
    | ok v =>
      split
      · split
        · simp
        · simp [hE, hOS]
      · simp [hE, hOS]
    | error e =>
      split
      · split
        · simp
        · simp [hE, hOF]
      · simp [hE, hOF]
  · intro hst t hna hlt
    simp only [callTool]
    rw [if_pos (by simpa using hst), if_pos (by simpa [hna] using hlt)]
    exact ⟨rfl, rfl⟩

/-- C3 (witness): the amended claim at the always-retryable-failure call on
a `CLOSED`-threshold-2 client, and the open rejection on a client sitting
`OPEN` until `t = 1000` probed at `t = 20`. -/
theorem c3_witness :
    (callTool 20 clOpen fnFail).1.breaker.totalFailures ≤
      clOpen.breaker.totalFailures + 1
  ∧ (callTool 20 clOpen fnFail).2.1 = .error circuitOpenError
  ∧ (callTool 20 clOpen fnFail).2.2 = 0 :=
  ⟨(c3_amended 20 clOpen fnFail).1,
   ((c3_amended 20 clOpen fnFail).2 rfl 1000 rfl (by decide)).1,
   ((c3_amended 20 clOpen fnFail).2 rfl 1000 rfl (by decide)).2⟩

/-- C4 (counterexample): breaker with `failure_threshold = 2` opened at
`t = 10` (`next_attempt = 110`); the monitoring timer then resets the
rolling counters.  The probe at `t = 200` enters `HALF_OPEN` and fails,
but `onFailure` applies the ordinary threshold rule (`1 ≥ 2` is false), so
the breaker STAYS `HALF_OPEN` with the stale `next_attempt = 110` — it does
not return to `OPEN` with a fresh `next_attempt`, and no threshold-1 rule
exists for the half-open state. -/
theorem c4_counterexample :
    cl4c.breaker.state = CBState.OPEN
  ∧ cl4c.breaker.nextAttempt = some 110
  ∧ cl4d.breaker.failures = 0
  ∧ (callTool 200 cl4d fnBoom).2.1 = .error { message := "boom", code := none }
  ∧ cl4e.breaker.state = CBState.HALF_OPEN
  ∧ CBState.HALF_OPEN ≠ CBState.OPEN
  ∧ cl4e.breaker.nextAttempt = some 110 :=
  ⟨rfl, rfl, rfl, rfl, rfl, by decide, rfl⟩

/-- C4 (amended): an always-failing probe on a breaker that is `OPEN` with
an expired `next_attempt` (so the call enters `HALF_OPEN`) is settled by
the ordinary `onFailure` threshold rule: if the incremented rolling counter
reaches `failure_threshold` the breaker re-opens with a fresh
`next_attempt = now + reset_timeout`; otherwise it remains `HALF_OPEN`
with the old `next_attempt` unchanged. -/
theorem c4_amended (now t : Nat) (cl : MCPClientState)
    (fn : Nat → Except JsError JsonVal)
    (hst : cl.breaker.state = CBState.OPEN)
    (hna : cl.breaker.nextAttempt = some t)
    (hle : t ≤ now)
    (hf : ∀ n, ∃ e, fn n = Except.error e) :
    (cl.breaker.failureThreshold ≤ cl.breaker.failures + 1 →
      (callTool now cl fn).1.breaker.state = CBState.OPEN ∧
      (callTool now cl fn).1.breaker.nextAttempt =
        some (now + cl.breaker.resetTimeout))
  ∧ (cl.breaker.failures + 1 < cl.breaker.failureThreshold →
      (callTool now cl fn).1.breaker.state = CBState.HALF_OPEN ∧
      (callTool now cl fn).1.breaker.nextAttempt = some t) := by
  obtain ⟨e, att, hE⟩ := retryGo_allFail fn hf cl.maxRetries 0
  have hE2 : executeWithRetry cl.maxRetries fn = (Except.error e, att) := hE
  constructor
  · intro hth
    simp only [callTool]
    rw [if_pos (by simpa using hst), if_neg (by simp [hna]; omega)]
    simp only [hE2, CircuitBreaker.onFailure]
    rw [if_pos (by simpa using hth)]
    exact ⟨rfl, rfl⟩
  · intro hth
    simp only [callTool]
    rw [if_pos (by simpa using hst), if_neg (by simp [hna]; omega)]
    simp only [hE2, CircuitBreaker.onFailure]
    rw [if_neg (by simp; omega)]
    exact ⟨rfl, by simpa using hna⟩

/-- C4 (witness): the below-threshold half of the amended claim on the
probe client (`OPEN`, `next_attempt = 10`, threshold 2, counters reset)
probed at `t = 20`: the breaker ends `HALF_OPEN` with `next_attempt`
still 10. -/
theorem c4_witness :
    (callTool 20 clProbe fnBoom).1.breaker.state = CBState.HALF_OPEN
  ∧ (callTool 20 clProbe fnBoom).1.breaker.nextAttempt = some 10 :=
  (c4_amended 20 10 clProbe fnBoom rfl rfl (by decide)
    (fun _ => ⟨{ message := "boom", code := none }, rfl⟩)).2 (by decide)

/-- C6 (counterexample): the auxiliary MCP `extra`, registered by
environment discovery after the first file load, is present in the cache —
but the very next successful file reload rebuilds the cache from
`registry.mcps` alone (`updateMcpCache` starts with `this.mcpCache.clear()`),
so `extra` is gone even though no file-sourced name was dropped. -/
theorem c6_counterexample :
    (lookupEntry st2.mcpCache "extra").isSome = true
  ∧ exceptIsError reload2.2 = false
  ∧ lookupEntry reload2.1.mcpCache "extra" = none :=
  ⟨rfl, rfl, rfl⟩

/-- C6 (amended): (1) after a successful `loadRegistry`, every name in the
descriptor cache comes from the new registry's `mcps` — auxiliary-sourced
entries do NOT survive a reload; (2) environment discovery only adds:
every descriptor already cached is still cached, byte-identical, after
`startEnvironmentDiscovery` runs. -/
theorem c6_amended :
    (∀ (now : Nat) (envLU : String → Option String)
        (parsed : Except String JsonVal) (st : DiscoveryState)
        (evs : List DiscEvent) (n : String),
      (loadRegistry now envLU parsed st).2 = .ok evs →
      (lookupEntry (loadRegistry now envLU parsed st).1.mcpCache n).isSome = true →
      n ∈ mcpKeys (loadRegistry now envLU parsed st).1.registry)
  ∧ (∀ (envVars : List (String × String)) (now : Nat) (st : DiscoveryState)
        (n : String) (v : JsonVal),
      lookupEntry st.mcpCache n = some v →
      lookupEntry (startEnvironmentDiscovery envVars now st).1.mcpCache n = some v) := by
  constructor
  · intro now envLU parsed st evs n hok hmem
    match parsed with
    | .error e => simp [loadRegistry] at hok
    | .ok newReg =>
      match hv : validateRegistry newReg with
      | .error e => rw [loadRegistry] at hok; simp [hv] at hok
      | .ok reg =>
        simp only [loadRegistry, hv, updateMcpCache] at hmem ⊢
        simp only [mcpKeys]
        exact lookupEntry_map_isSome _ _ n hmem
  · intro envVars now st n v h
    unfold startEnvironmentDiscovery
    exact foldl_envDiscStep_preserves now _ (st, []) n v h

/-- C6 (witness): both halves of the amended claim on the concrete
scenario: after the second successful reload `alpha` (a file name) is among
the registry's keys, and environment discovery of `extra` left the cached
`alpha` descriptor untouched. -/
theorem c6_amended_witness :
    "alpha" ∈ mcpKeys reload2.1.registry
  ∧ lookupEntry st2.mcpCache "alpha" = some valueAlpha :=
  ⟨c6_amended.1 9 noEnv (.ok regOk) st2
      [DiscEvent.mcps_updated ["alpha"], DiscEvent.registry_loaded] "alpha" rfl rfl,
   c6_amended.2 [("MCP_EXTRA_ENDPOINT", "http://x:9")] 5 st1 "alpha" valueAlpha rfl⟩

end Paestro
